import Mathlib

/-!
Shallow embedding of the bevy_more_shapes mesh generators
(src/lib.rs, src/util.rs, src/grid.rs, src/cone.rs, src/cylinder.rs,
src/torus.rs, src/polygon.rs, src/curve.rs) and proofs about them.

Modelling conventions:
* f32 scalars are modelled as exact rationals. Decimal literals of the
  source are read as the rational they denote; the f32 constants TAU, PI,
  FRAC_PI_2 and EPSILON are the exact values of the corresponding f32
  bit patterns (all f32 values are dyadic rationals).
* Transcendental f32 routines (cos, sin, sqrt, acos, asin, atan2) have no
  exact rational counterpart, so the generators are parameterised by a
  `RealOps` record supplying them; theorems quantify over every such
  record, and concrete records are used for closed evaluations.
* A separate IEEE-754-style model (`FPM` namespace) with signed infinities
  and NaN is used for the one claim that is genuinely about non-finite
  float values; on the evaluated inputs every finite operation is exact,
  so no rounding is modelled.
* Rust `for` loops that push a fixed block of elements per iteration are
  translated to `List.range`/`flatMap` builds; loops whose body reads the
  previous iteration's result (curve frame propagation) are translated to
  structural recursion carrying the previous value.
* `assert!(c, msg)` at the head of a generator is translated to a
  `GenResult.panic msg` branch; the `From<...> for Mesh` conversions
  therefore return `GenResult BMesh`.
-/

namespace BMS

/-- Model of bevy Vec3 with f32 components idealised as rationals. -/
structure V3 where
  x : ℚ
  y : ℚ
  z : ℚ
deriving DecidableEq, Repr

/-- Model of bevy Vec2 with f32 components idealised as rationals. -/
structure V2 where
  x : ℚ
  y : ℚ
deriving DecidableEq, Repr

/-- Componentwise vector addition. -/
def vadd (a b : V3) : V3 := ⟨a.x + b.x, a.y + b.y, a.z + b.z⟩

/-- Componentwise vector subtraction. -/
def vsub (a b : V3) : V3 := ⟨a.x - b.x, a.y - b.y, a.z - b.z⟩

/-- Scalar multiplication of a vector. -/
def vsmul (s : ℚ) (a : V3) : V3 := ⟨s * a.x, s * a.y, s * a.z⟩

/-- Vector negation. -/
def vneg (a : V3) : V3 := ⟨-a.x, -a.y, -a.z⟩

/-- Dot product. -/
def vdot (a b : V3) : ℚ := a.x * b.x + a.y * b.y + a.z * b.z

/-- Cross product, as computed by glam Vec3::cross. -/
def vcross (a b : V3) : V3 :=
  ⟨a.y * b.z - a.z * b.y, a.z * b.x - a.x * b.z, a.x * b.y - a.y * b.x⟩

/-- Exact value of the f32 constant std::f32::consts::TAU. -/
def TAUf : ℚ := 13176795 / 2097152

/-- Exact value of the f32 constant std::f32::consts::PI. -/
def PIf : ℚ := 13176795 / 4194304

/-- Exact value of the f32 constant std::f32::consts::FRAC_PI_2. -/
def FRACPI2f : ℚ := 13176795 / 8388608

/-- Exact value of f32::EPSILON, two to the power minus 23. -/
def EPSf : ℚ := 1 / 8388608

/-- Exact value of f32::MAX, (2 to the 24 minus 1) times 2 to the 104. -/
def MAXf : ℚ := 16777215 * 2 ^ 104

/-- Exact value of f32::MIN, the negation of f32::MAX. -/
def MINf : ℚ := -MAXf

/-- Abstract model of the transcendental f32 routines used by the
generators. Theorems quantify over every `RealOps`; any rounding of the
true real functions is one instance. -/
structure RealOps where
  cosF : ℚ → ℚ
  sinF : ℚ → ℚ
  sqrtF : ℚ → ℚ
  acosF : ℚ → ℚ
  asinF : ℚ → ℚ
  atan2F : ℚ → ℚ → ℚ

/-- Vec3::length, sqrt of the squared length via the abstract sqrt. -/
def vlength (ops : RealOps) (a : V3) : ℚ := ops.sqrtF (vdot a a)

/-- Vec3::normalize, division by the length (glam computes v / length). -/
def vnormalize (ops : RealOps) (a : V3) : V3 := vsmul (1 / vlength ops a) a

/-- A concrete `RealOps` record whose transcendental routines all return
zero; used only to instantiate universally quantified theorems on closed
inputs whose conclusion does not depend on transcendental values. -/
def opsZero : RealOps :=
  { cosF := fun _ => 0, sinF := fun _ => 0, sqrtF := fun _ => 0,
    acosF := fun _ => 0, asinF := fun _ => 0, atan2F := fun _ _ => 0 }

/-- One generated vertex: the position, normal and uv pushed by a single
lockstep iteration of a generator loop (the source pushes into three
parallel vectors; the three lists of `MeshData` are recovered by
projection, which keeps them index-aligned by construction). -/
structure Vtx where
  pos : V3
  nor : V3
  uv : V2
deriving DecidableEq, Repr

/-- Model of crate::MeshData (src/lib.rs): the four parallel buffers. -/
structure MeshData where
  positions : List V3
  normals : List V3
  uvs : List V2
  indices : List ℕ
deriving DecidableEq, Repr

/-- Mesh primitive topology (bevy PrimitiveTopology), as used here. -/
inductive Topology where
  | triangleList
  | lineStrip
deriving DecidableEq, Repr

/-- Model of a bevy Mesh as assembled by the generators: a topology plus
optional attribute buffers; an attribute that insert_attribute never set
is `none` (the curve line case sets only positions and no indices). -/
structure BMesh where
  topology : Topology
  positions : List V3
  normals : Option (List V3)
  uvs : Option (List V2)
  indices : Option (List ℕ)
deriving DecidableEq, Repr

/-- Outcome of a `From<...> for Mesh` conversion: a mesh, a typed error
(the channel the spec asks for; this code never produces it), or a panic
from a failed `assert!` or `unwrap()`. -/
inductive GenResult (α : Type) where
  | ok : α → GenResult α
  | error : String → GenResult α
  | panic : String → GenResult α
deriving DecidableEq, Repr

/-- True exactly on the `ok` outcome. -/
def GenResult.isOk : GenResult α → Bool
  | .ok _ => true
  | _ => false

/-- True exactly on the typed `error` outcome. -/
def GenResult.isError : GenResult α → Bool
  | .error _ => true
  | _ => false

/-- Model of util.rs FlatTrapezeIndices: the four corner indices of a
quad cell. -/
structure FlatTrapezeIndices where
  lower_left : ℕ
  upper_left : ℕ
  lower_right : ℕ
  upper_right : ℕ
deriving DecidableEq, Repr

/-- Model of util.rs FlatTrapezeIndices::generate_triangles: appends the
two triangles of the quad to the index buffer. -/
def FlatTrapezeIndices.generate_triangles (f : FlatTrapezeIndices)
    (indices : List ℕ) : List ℕ :=
  indices ++ [f.upper_left, f.upper_right, f.lower_left,
              f.upper_right, f.lower_right, f.lower_left]

/-- Model of util.rs Extent: running axis-aligned min and max. -/
structure Extent where
  min : V3
  max : V3
deriving DecidableEq, Repr

/-- Model of Extent::new, starting at (f32::MAX, f32::MIN). -/
def Extent.new : Extent :=
  ⟨⟨MAXf, MAXf, MAXf⟩, ⟨MINf, MINf, MINf⟩⟩

/-- Model of Extent::extend_to_include. -/
def Extent.extend_to_include (e : Extent) (v : V3) : Extent :=
  ⟨⟨Min.min e.min.x v.x, Min.min e.min.y v.y, Min.min e.min.z v.z⟩,
   ⟨Max.max e.max.x v.x, Max.max e.max.y v.y, Max.max e.max.z v.z⟩⟩

/-- Model of Extent::lengths, max minus min. -/
def Extent.lengths (e : Extent) : V3 := vsub e.max e.min

/-- Model of Extent::center, min plus half the diagonal. -/
def Extent.center (e : Extent) : V3 :=
  vadd e.min (vsmul (1 / 2) (vsub e.max e.min))

/-- Model of the Grid parameter record (src/grid.rs). -/
structure Grid where
  width : ℚ
  height : ℚ
  width_segments : ℕ
  height_segments : ℕ
deriving DecidableEq, Repr

/-- Model of Grid::default. -/
def Grid.default : Grid := ⟨1, 1, 1, 1⟩

/-- One vertex of the grid vertex loop body (src/grid.rs lines 68-75). -/
def gridVertex (g : Grid) (z x : ℕ) : Vtx :=
  let width_half := g.width / 2
  let height_half := g.height / 2
  let x_segment_len := g.width / (g.width_segments : ℚ)
  let z_segment_len := g.height / (g.height_segments : ℚ)
  let width_segments_inv := 1 / (g.width_segments : ℚ)
  let height_segments_inv := 1 / (g.height_segments : ℚ)
  { pos := ⟨(x : ℚ) * x_segment_len - width_half, 0,
            (z : ℚ) * z_segment_len - height_half⟩,
    nor := ⟨0, 1, 0⟩,
    uv := ⟨(x : ℚ) * width_segments_inv, (z : ℚ) * height_segments_inv⟩ }

/-- The grid vertex double loop (src/grid.rs lines 68-75). -/
def gridVertices (g : Grid) : List Vtx :=
  (List.range (g.height_segments + 1)).flatMap (fun z =>
    (List.range (g.width_segments + 1)).map (fun x => gridVertex g z x))

/-- The grid index double loop (src/grid.rs lines 78-90). -/
def gridIndices (g : Grid) : List ℕ :=
  (List.range g.height_segments).flatMap (fun face_z =>
    (List.range g.width_segments).flatMap (fun face_x =>
      let lower_left := face_z * (g.width_segments + 1) + face_x
      let face : FlatTrapezeIndices :=
        { lower_left := lower_left,
          upper_left := lower_left + (g.width_segments + 1),
          lower_right := lower_left + 1,
          upper_right := lower_left + 1 + (g.width_segments + 1) }
      face.generate_triangles []))

/-- Model of `From<Grid> for Mesh` (src/grid.rs lines 38-98). -/
def gridMesh (g : Grid) : GenResult BMesh :=
  if ¬ 0 < g.width_segments then .panic "A grid must have segments" else
  if ¬ 0 < g.height_segments then .panic "A grid must have segments" else
  if ¬ 0 < g.width then .panic "A grid must have positive width" else
  if ¬ 0 < g.height then .panic "A grid must have positive height" else
  let verts := gridVertices g
  .ok { topology := .triangleList,
        positions := verts.map Vtx.pos,
        normals := some (verts.map Vtx.nor),
        uvs := some (verts.map Vtx.uv),
        indices := some (gridIndices g) }

/-- Model of the Cylinder parameter record (src/cylinder.rs). -/
structure Cylinder where
  height : ℚ
  radius_bottom : ℚ
  radius_top : ℚ
  subdivisions : ℕ
deriving DecidableEq, Repr

/-- Model of Cylinder::default. -/
def Cylinder.default : Cylinder := ⟨1, 1 / 2, 1 / 2, 32⟩

/-- Model of Cylinder::new_regular. -/
def Cylinder.new_regular (height radius : ℚ) (subdivisions : ℕ) : Cylinder :=
  ⟨height, radius, radius, subdivisions⟩

/-- Model of the cylinder VertexPass enum. -/
inductive VertexPass where
  | Top
  | Bottom
  | TopRing
  | BottomRing
deriving DecidableEq, Repr

/-- Model of VertexPass::iter, in the source order (top vertices first). -/
def VertexPass.all : List VertexPass :=
  [.Top, .Bottom, .TopRing, .BottomRing]

/-- Model of cylinder.rs sphere_coordinates (lines 118-122). -/
def sphere_coordinates (ops : RealOps) (sphere_coord : V3) : V2 :=
  ⟨1 / 2 + ops.atan2F sphere_coord.x sphere_coord.z / (2 * PIf),
   1 / 2 + ops.asinF sphere_coord.y / PIf⟩

/-- One vertex of the cylinder ring-vertex loop body
(src/cylinder.rs lines 153-194): position, normal and wrapped uv for the
given pass and row index. -/
def cylinderVertex (ops : RealOps) (c : Cylinder) (pass : VertexPass)
    (row_idx : ℕ) : Vtx :=
  let angle_step := 2 * PIf / (c.subdivisions : ℚ)
  let theta := angle_step * (row_idx : ℚ)
  let h := match pass with
    | .Top => c.height / 2
    | .Bottom => -c.height / 2
    | .TopRing => c.height / 2
    | .BottomRing => -c.height / 2
  let radius := match pass with
    | .Top => c.radius_top
    | .Bottom => c.radius_bottom
    | .TopRing => c.radius_top
    | .BottomRing => c.radius_bottom
  let position : V3 := ⟨radius * ops.cosF theta, h, radius * ops.sinF theta⟩
  let normal := match pass with
    | .Top => (⟨0, 1, 0⟩ : V3)
    | .Bottom => (⟨0, -1, 0⟩ : V3)
    | .TopRing => vnormalize ops ⟨position.x, 0, position.z⟩
    | .BottomRing => vnormalize ops ⟨position.x, 0, position.z⟩
  let uv0 := sphere_coordinates ops (vneg (vnormalize ops position))
  let u := if uv0.x < 0 then 1 - uv0.x
           else if 1 < uv0.x then uv0.x - 1
           else uv0.x
  { pos := position, nor := normal, uv := ⟨u, uv0.y⟩ }

/-- The four cylinder ring-vertex passes followed by the two cap-center
vertices (src/cylinder.rs lines 153-203). -/
def cylinderVertices (ops : RealOps) (c : Cylinder) : List Vtx :=
  (VertexPass.all.flatMap (fun pass =>
    (List.range c.subdivisions).map (fun row_idx =>
      cylinderVertex ops c pass row_idx)))
  ++ [{ pos := ⟨0, c.height / 2, 0⟩, nor := ⟨0, 1, 0⟩, uv := ⟨1 / 2, 0⟩ },
      { pos := ⟨0, -c.height / 2, 0⟩, nor := ⟨0, -1, 0⟩, uv := ⟨1 / 2, 1⟩ }]

/-- Model of cylinder.rs add_indices_top (lines 58-72). -/
def add_indices_top (mid_idx : ℕ) (c : Cylinder) : List ℕ :=
  ((List.range (c.subdivisions - 1)).flatMap (fun (i : ℕ) =>
    [mid_idx, i + 1, i]))
  ++ [mid_idx, 0, c.subdivisions - 1]

/-- Model of cylinder.rs add_indices_bottom (lines 74-90). -/
def add_indices_bottom (mid_idx : ℕ) (c : Cylinder) : List ℕ :=
  let base_index_bottom := c.subdivisions
  ((List.range (c.subdivisions - 1)).flatMap (fun (i : ℕ) =>
    [i + base_index_bottom, i + 1 + base_index_bottom, mid_idx]))
  ++ [base_index_bottom + c.subdivisions - 1, base_index_bottom, mid_idx]

/-- Model of cylinder.rs add_indices_body (lines 92-115). -/
def add_indices_body (c : Cylinder) : List ℕ :=
  let base_index_top_ring := c.subdivisions * 2
  let base_index_bottom_ring := c.subdivisions * 3
  ((List.range (c.subdivisions - 1)).flatMap (fun (i : ℕ) =>
    (FlatTrapezeIndices.mk
      (i + base_index_bottom_ring) (i + base_index_top_ring)
      (i + 1 + base_index_bottom_ring)
      (i + 1 + base_index_top_ring)).generate_triangles []))
  ++ (FlatTrapezeIndices.mk
      (base_index_bottom_ring + c.subdivisions - 1)
      (base_index_top_ring + c.subdivisions - 1)
      base_index_bottom_ring base_index_top_ring).generate_triangles []

/-- Model of `From<Cylinder> for Mesh` (src/cylinder.rs lines 124-219),
with the validation asserts translated verbatim: note the source checks
`radius_bottom >= 0.0` and `radius_top >= 0.0` although its messages ask
for a positive radius. -/
def cylinderMesh (ops : RealOps) (c : Cylinder) : GenResult BMesh :=
  if ¬ 0 < c.height then .panic "Must have positive height" else
  if ¬ 0 ≤ c.radius_bottom then .panic "Must have positive radius." else
  if ¬ 0 ≤ c.radius_top then .panic "Must have positive radius." else
  if ¬ 2 < c.subdivisions then
    .panic "Must have at least 3 subdivisions to close the surface." else
  let verts := cylinderVertices ops c
  let top_mid_idx := verts.length - 2
  let bottom_mid_idx := verts.length - 1
  let indices := add_indices_top top_mid_idx c
    ++ add_indices_bottom bottom_mid_idx c
    ++ add_indices_body c
  .ok { topology := .triangleList,
        positions := verts.map Vtx.pos,
        normals := some (verts.map Vtx.nor),
        uvs := some (verts.map Vtx.uv),
        indices := some indices }

/-- Model of the Cone parameter record (src/cone.rs). -/
structure Cone where
  radius : ℚ
  height : ℚ
  segments : ℕ
deriving DecidableEq, Repr

/-- Model of Cone::default. -/
def Cone.default : Cone := ⟨1 / 2, 1, 32⟩

/-- Vertices pushed by cone.rs add_bottom (lines 30-56): the base-disk
center followed by the base ring. -/
def cone_bottom_verts (ops : RealOps) (cone : Cone) : List Vtx :=
  let angle_step := TAUf / (cone.segments : ℚ)
  { pos := ⟨0, -cone.height / 2, 0⟩, nor := ⟨0, -1, 0⟩, uv := ⟨1 / 2, 1 / 2⟩ }
  :: (List.range (cone.segments + 1)).map (fun (i : ℕ) =>
    let theta := (i : ℚ) * angle_step
    let x_unit := ops.cosF theta
    let z_unit := ops.sinF theta
    { pos := ⟨cone.radius * x_unit, -cone.height / 2, cone.radius * z_unit⟩,
      nor := ⟨0, -1, 0⟩,
      uv := ⟨z_unit * (1 / 2) + 1 / 2, x_unit * (-(1 / 2)) + 1 / 2⟩ })

/-- Indices pushed by cone.rs add_bottom (lines 58-63), fanning the base
disk around the center vertex at `base_index`. -/
def cone_bottom_indices (cone : Cone) (base_index : ℕ) : List ℕ :=
  (List.range cone.segments).flatMap (fun (i : ℕ) =>
    [base_index + i + 1, base_index + i + 2, base_index])

/-- Vertices pushed by cone.rs add_body (lines 71-108): one duplicated
apex vertex per segment (each with its own mid-angle slope normal),
followed by the body's bottom ring. -/
def cone_body_verts (ops : RealOps) (cone : Cone) : List Vtx :=
  let angle_step := TAUf / (cone.segments : ℚ)
  ((List.range cone.segments).map (fun (i : ℕ) =>
    let theta := (i : ℚ) * angle_step + angle_step / 2
    let x_unit := ops.cosF theta
    let z_unit := ops.sinF theta
    let slope := cone.radius / cone.height
    { pos := (⟨0, cone.height / 2, 0⟩ : V3),
      nor := vnormalize ops ⟨x_unit, slope, z_unit⟩,
      uv := (⟨1 / 2, 1 / 2⟩ : V2) }))
  ++ ((List.range (cone.segments + 1)).map (fun (i : ℕ) =>
    let theta := (i : ℚ) * angle_step
    let x_unit := ops.cosF theta
    let z_unit := ops.sinF theta
    let slope := cone.radius / cone.height
    { pos := ⟨x_unit * cone.radius, -cone.height / 2, z_unit * cone.radius⟩,
      nor := vnormalize ops ⟨x_unit, slope, z_unit⟩,
      uv := ⟨z_unit * (1 / 2) + 1 / 2, x_unit * (1 / 2) + 1 / 2⟩ }))

/-- Indices pushed by cone.rs add_body (lines 110-120). -/
def cone_body_indices (cone : Cone) (base_index : ℕ) : List ℕ :=
  (List.range cone.segments).flatMap (fun (i : ℕ) =>
    let top := base_index + i
    let left := base_index + cone.segments + i
    let right := left + 1
    [right, left, top])

/-- Model of `From<Cone> for Mesh` (src/cone.rs lines 123-151); the body
index pass starts at the vertex count the bottom pass left behind. -/
def coneMesh (ops : RealOps) (cone : Cone) : GenResult BMesh :=
  if ¬ 0 < cone.height then .panic "Must have positive height" else
  if ¬ 0 < cone.radius then .panic "Must have positive radius" else
  if ¬ 2 < cone.segments then
    .panic "Must have at least 3 subdivisions to close the surface" else
  let bottom := cone_bottom_verts ops cone
  let verts := bottom ++ cone_body_verts ops cone
  let indices := cone_bottom_indices cone 0
    ++ cone_body_indices cone bottom.length
  .ok { topology := .triangleList,
        positions := verts.map Vtx.pos,
        normals := some (verts.map Vtx.nor),
        uvs := some (verts.map Vtx.uv),
        indices := some indices }

/-- Model of the Torus parameter record (src/torus.rs). -/
structure Torus where
  radius : ℚ
  tube_radius : ℚ
  radial_segments : ℕ
  tube_segments : ℕ
  radial_circumference : ℚ
  tube_circumference : ℚ
  radial_offset : ℚ
  tube_offset : ℚ
deriving DecidableEq, Repr

/-- Model of Torus::default. -/
def Torus.default : Torus :=
  ⟨4 / 5, 1 / 5, 64, 32, TAUf, TAUf, 0, 0⟩

/-- One vertex of the torus body double loop
(src/torus.rs lines 89-119). -/
def torusVertex (ops : RealOps) (torus : Torus)
    (horizontal_idx vertical_idx : ℕ) : Vtx :=
  let angle_step_vertical := torus.tube_circumference / (torus.tube_segments : ℚ)
  let angle_step_horizontal :=
    torus.radial_circumference / (torus.radial_segments : ℚ)
  let theta_horizontal :=
    angle_step_horizontal * (horizontal_idx : ℚ) + torus.radial_offset
  let ring_center : V3 :=
    ⟨torus.radius * ops.cosF theta_horizontal, 0,
     torus.radius * ops.sinF theta_horizontal⟩
  let theta_vertical :=
    angle_step_vertical * (vertical_idx : ℚ) + torus.tube_offset
  let position : V3 :=
    ⟨ops.cosF theta_horizontal
       * (torus.radius + torus.tube_radius * ops.cosF theta_vertical),
     ops.sinF theta_vertical * torus.tube_radius,
     ops.sinF theta_horizontal
       * (torus.radius + torus.tube_radius * ops.cosF theta_vertical)⟩
  { pos := position,
    nor := vnormalize ops (vsub position ring_center),
    uv := ⟨1 / (torus.radial_segments : ℚ) * (horizontal_idx : ℚ),
           1 / (torus.tube_segments : ℚ) * (vertical_idx : ℚ)⟩ }

/-- The torus body vertices, ring by ring (src/torus.rs lines 89-120). -/
def torusVertices (ops : RealOps) (torus : Torus) : List Vtx :=
  (List.range (torus.radial_segments + 1)).flatMap (fun horizontal_idx =>
    (List.range (torus.tube_segments + 1)).map (fun vertical_idx =>
      torusVertex ops torus horizontal_idx vertical_idx))

/-- The torus body indices (src/torus.rs lines 123-137). -/
def torusIndices (torus : Torus) : List ℕ :=
  (List.range torus.radial_segments).flatMap (fun horizontal_idx =>
    let ring0_base_idx := horizontal_idx * (torus.tube_segments + 1)
    let ring1_base_idx := (horizontal_idx + 1) * (torus.tube_segments + 1)
    (List.range torus.tube_segments).flatMap (fun vertical_idx =>
      (FlatTrapezeIndices.mk
        (ring0_base_idx + vertical_idx)
        (ring0_base_idx + vertical_idx + 1)
        (ring1_base_idx + vertical_idx)
        (ring1_base_idx + vertical_idx + 1)).generate_triangles []))

/-- Model of `From<Torus> for Mesh` (src/torus.rs lines 41-79), with the
validation asserts translated verbatim: note that the source's last
guarded block tests and bounds `tube_radius`, not `tube_offset`, although
its messages speak about the tube offset; `tube_offset` itself is never
validated. -/
def torusMesh (ops : RealOps) (torus : Torus) : GenResult BMesh :=
  if ¬ 0 < torus.radius then
    .panic "The radii of a torus must be positive" else
  if ¬ 0 < torus.tube_radius then
    .panic "The radii of a torus must be positive" else
  if ¬ 3 ≤ torus.radial_segments then
    .panic "Must have at least 3 radial segments" else
  if ¬ 3 ≤ torus.tube_segments then
    .panic "3 Must have at least 3 tube segments" else
  if ¬ 0 < torus.radial_circumference then
    .panic "Radial circumference must be positive" else
  if ¬ 0 < torus.tube_circumference then
    .panic "Tube circumference must be positive" else
  if ¬ torus.radial_circumference ≤ TAUf then
    .panic "Radial circumference must not exceed 2pi radians" else
  if ¬ torus.tube_circumference ≤ TAUf then
    .panic "Tube circumference must not exceed 2pi radians" else
  if torus.radial_circumference < TAUf ∧ ¬ 0 ≤ torus.radial_offset then
    .panic "Radial offset must be between 0 and 2pi" else
  if torus.radial_circumference < TAUf ∧ ¬ torus.radial_offset ≤ TAUf then
    .panic "Radial offset must be between 0 and 2pi" else
  if torus.tube_radius < TAUf ∧ ¬ 0 ≤ torus.tube_radius then
    .panic "Tube offset must be between 0 and 2pi" else
  if torus.tube_radius < TAUf ∧ ¬ torus.tube_radius ≤ TAUf then
    .panic "Tube offset must be between 0 and 2pi" else
  let verts := torusVertices ops torus
  .ok { topology := .triangleList,
        positions := verts.map Vtx.pos,
        normals := some (verts.map Vtx.nor),
        uvs := some (verts.map Vtx.uv),
        indices := some (torusIndices torus) }

/-- Model of the Polygon parameter record (src/polygon.rs). -/
structure Polygon where
  points : List V2
deriving DecidableEq, Repr

/-- Model of Polygon::new_regular_ngon (src/polygon.rs lines 17-30). -/
def Polygon.new_regular_ngon (ops : RealOps) (radius : ℚ) (n : ℕ) : Polygon :=
  let angle_step := 2 * PIf / (n : ℚ)
  ⟨(List.range n).map (fun (i : ℕ) =>
    let theta := angle_step * (i : ℚ)
    ⟨radius * ops.cosF theta, radius * ops.sinF theta⟩)⟩

/-- Model of Polygon::new_triangle. -/
def Polygon.new_triangle (ops : RealOps) (radius : ℚ) : Polygon :=
  Polygon.new_regular_ngon ops radius 3

/-- Model of a 2D Rect with min and max corner. -/
structure Rect where
  min : V2
  max : V2
deriving DecidableEq, Repr

/-- Model of polygon.rs bounding_rect_for_points (lines 53-70); note the
running bounds start at zero, not at infinities. -/
def bounding_rect_for_points (points : List V2) : Rect :=
  let b := points.foldl (fun (b : ℚ × ℚ × ℚ × ℚ) point =>
    (Min.min b.1 point.x, Max.max b.2.1 point.x,
     Min.min b.2.2.1 point.y, Max.max b.2.2.2 point.y)) (0, 0, 0, 0)
  ⟨⟨b.1, b.2.2.1⟩, ⟨b.2.1, b.2.2.2⟩⟩

/-- Model of `From<Polygon> for Mesh` (src/polygon.rs lines 147-196).
The 2D triangulation is performed by the external `triangulate` crate;
it is modelled as the function argument `tri` returning the flat index
list, or `none` for a triangulation error, which the source turns into a
panic through `unwrap()`. -/
def polygonMesh (tri : List V2 → Option (List ℕ)) (polygon : Polygon) :
    GenResult BMesh :=
  if ¬ 3 ≤ polygon.points.length then
    .panic "At least 3 points are needed to produce a closed shape." else
  let domain := bounding_rect_for_points polygon.points
  let verts := polygon.points.map (fun v =>
    { pos := (⟨v.x, 0, v.y⟩ : V3),
      nor := (⟨0, 1, 0⟩ : V3),
      uv := (⟨(v.x - domain.min.x) / (domain.max.x - domain.min.x),
              (v.y - domain.min.y) / (domain.max.y - domain.min.y)⟩ : V2) })
  match tri polygon.points with
  | none => .panic "called `Result::unwrap()` on an `Err` value"
  | some result =>
    .ok { topology := .triangleList,
          positions := verts.map Vtx.pos,
          normals := some (verts.map Vtx.nor),
          uvs := some (verts.map Vtx.uv),
          indices := some result }

/-- Indexed map starting at a given index; translation device for Rust
`enumerate()` over an iterator tail. -/
def mapFrom (f : ℕ → α → β) : ℕ → List α → List β
  | _, [] => []
  | i, a :: as => f i a :: mapFrom f (i + 1) as

/-- Model of the CurveFunction trait object: the two capabilities the
generator consumes. Callers may override tangent_at; the trait default is
`default_tangent_at` below. -/
structure CurveFn where
  eval_at : ℚ → V3
  tangent_at : ℚ → V3

/-- The trait's DELTA constant for the central-difference tangent. -/
def DELTAf : ℚ := 1 / 10000

/-- Model of the CurveFunction::tangent_at default body
(src/curve.rs lines 17-26). -/
def default_tangent_at (ops : RealOps) (eval_at : ℚ → V3) (t : ℚ) : V3 :=
  let t0 := t - DELTAf
  let t1 := t + DELTAf
  let v0 := eval_at t0
  let v1 := eval_at t1
  vnormalize ops (vsub v1 v0)

/-- Model of DefaultCurve (src/curve.rs lines 32-44): a straight line up
the y axis, with tangent_at overridden to the constant (0, 1, 0). -/
def DefaultCurve : CurveFn :=
  { eval_at := fun t => ⟨0, t, 0⟩, tangent_at := fun _ => ⟨0, 1, 0⟩ }

/-- Model of the Curve parameter record (src/curve.rs lines 51-65). -/
structure Curve where
  radius : ℚ
  curve : CurveFn
  length_segments : ℕ
  radial_segments : ℕ
  radial_circumference : ℚ
  radial_offset : ℚ

/-- Model of Curve::default. -/
def Curve.default : Curve :=
  { radius := 1 / 20, curve := DefaultCurve, length_segments := 64,
    radial_segments := 64, radial_circumference := TAUf, radial_offset := 0 }

/-- Model of the FrenetSerretFrame record (src/curve.rs lines 80-85). -/
structure FrenetSerretFrame where
  origin : V3
  tangent : V3
  normal : V3
  binormal : V3
deriving DecidableEq, Repr

/-- Model of curve.rs initial_normal (lines 87-110): pick the world axis
whose component in the tangent is smallest, via the source's running-min
if chain. -/
def initial_normal (tangent : V3) : V3 :=
  let min0 : ℚ := MAXf
  let tx := |tangent.x|
  let ty := |tangent.y|
  let tz := |tangent.z|
  let normal0 : V3 := ⟨0, 0, 0⟩
  let p1 : ℚ × V3 := if tx ≤ min0 then (tx, ⟨1, 0, 0⟩) else (min0, normal0)
  let p2 : ℚ × V3 := if ty ≤ p1.1 then (ty, ⟨0, 1, 0⟩) else p1
  if tz ≤ p2.1 then ⟨0, 0, 1⟩ else p2.2

/-- Model of curve.rs initial_frame (lines 112-125). -/
def initial_frame (ops : RealOps) (curve : CurveFn) : FrenetSerretFrame :=
  let origin := curve.eval_at 0
  let tangent := curve.tangent_at 0
  let normal := initial_normal tangent
  let v := vcross tangent (vnormalize ops (vcross tangent normal))
  { origin := origin, tangent := tangent, normal := v,
    binormal := vcross tangent v }

/-- Model of f32::clamp: if below min return min, if above max return
max, else the value itself. -/
def clampQ (x lo hi : ℚ) : ℚ :=
  if x < lo then lo else if hi < x then hi else x

/-- Model of Quat::from_axis_angle(axis, angle).mul_vec3(v): the glam
quaternion is (axis * sin(angle/2), cos(angle/2)) and mul_vec3 computes
v*(w*w - b.b) + b*(2*(v.b)) + (b x v)*(2*w) for b the vector part. -/
def rotate_axis_angle (ops : RealOps) (axis : V3) (angle : ℚ) (v : V3) : V3 :=
  let s := ops.sinF (angle / 2)
  let w := ops.cosF (angle / 2)
  let b := vsmul s axis
  vadd (vadd (vsmul (w * w - vdot b b) v) (vsmul (vdot v b * 2) b))
    (vsmul (w * 2) (vcross b v))

/-- Body of the frame-propagation loop (src/curve.rs lines 136-161):
derive the frame at parameter `t` from the previous frame by rotating the
previous normal about the cross of consecutive tangents, then recompute
the binormal. -/
def next_frame (ops : RealOps) (curve : CurveFn) (t : ℚ)
    (prev_frame : FrenetSerretFrame) : FrenetSerretFrame :=
  let cur0 : FrenetSerretFrame :=
    { origin := curve.eval_at t, tangent := curve.tangent_at t,
      normal := prev_frame.normal, binormal := prev_frame.binormal }
  let v := vcross prev_frame.tangent cur0.tangent
  let cur1 :=
    if EPSf < vlength ops v then
      let vn := vnormalize ops v
      let angle := vdot prev_frame.tangent cur0.tangent
      let angle := clampQ angle (-1) 1
      let theta := ops.acosF angle
      { cur0 with normal := rotate_axis_angle ops vn theta cur0.normal }
    else cur0
  { cur1 with binormal := vcross cur1.tangent cur1.normal }

/-- The sequential frame chain: `cnt` further frames starting at loop
index `i`, each derived from its predecessor (src/curve.rs lines
136-161). -/
def propagate_frames (ops : RealOps) (curve : CurveFn) (step : ℚ)
    (prev : FrenetSerretFrame) (i : ℕ) : ℕ → List FrenetSerretFrame
  | 0 => []
  | cnt + 1 =>
    let cur := next_frame ops curve (step * (i : ℚ)) prev
    cur :: propagate_frames ops curve step cur (i + 1) cnt

/-- One step of the closure-correction pass (src/curve.rs lines
184-188): rotate the frame's normal about the frame's own tangent by the
given angle and recompute the binormal. -/
def rotate_frame (ops : RealOps) (theta : ℚ)
    (frame : FrenetSerretFrame) : FrenetSerretFrame :=
  let normal := rotate_axis_angle ops frame.tangent theta frame.normal
  { frame with normal := normal, binormal := vcross frame.tangent normal }

/-- The closure-correction loop of calculate_frames (src/curve.rs lines
183-188): the source iterates `out.iter_mut().skip(1).enumerate()`, so
the first frame is left untouched and the frame at position `k` of the
remainder is rotated by `discrepancy_theta * k` with `k` counted from 0
(the enumerate index restarts after the skip). -/
def closure_correction (ops : RealOps) (discrepancy_theta : ℚ) :
    List FrenetSerretFrame → List FrenetSerretFrame
  | [] => []
  | f0 :: rest =>
    f0 :: mapFrom (fun idx frame =>
      rotate_frame ops (discrepancy_theta * (idx : ℚ)) frame) 0 rest

/-- Model of curve.rs calculate_frames (lines 127-192): the initial
frame, the sequential propagation, and — when the curve's endpoints
coincide within twice f32::EPSILON — the closure-correction pass with
the signed per-frame discrepancy angle. -/
def calculate_frames (ops : RealOps) (curve : CurveFn) (num_frames : ℕ) :
    List FrenetSerretFrame :=
  let step : ℚ := 1 / ((num_frames : ℚ) - 1)
  let f0 := initial_frame ops curve
  let out := f0 :: propagate_frames ops curve step f0 1 (num_frames - 1)
  let start_end_distance :=
    vlength ops (vsub (curve.eval_at 0) (curve.eval_at 1))
  if start_end_distance ≤ 2 * EPSf then
    let first_frame := f0
    let last_frame := out.getLastD f0
    let t := ops.acosF
        (clampQ (vdot first_frame.normal last_frame.normal) (-1) 1)
      / ((num_frames : ℚ) - 1)
    let discrepancy_theta :=
      if 0 < vdot first_frame.tangent
          (vcross first_frame.normal last_frame.normal) then -t else t
    closure_correction ops discrepancy_theta out
  else out

/-- Model of curve.rs normalize_frames (lines 194-207): recenter and
rescale every frame origin by the bounding extent. -/
def normalize_frames (frames : List FrenetSerretFrame) :
    List FrenetSerretFrame :=
  let extent := frames.foldl (fun e f => e.extend_to_include f.origin)
    Extent.new
  let center := extent.center
  let lengths := [extent.lengths.x, extent.lengths.y, extent.lengths.z]
  let scale := 1 / lengths.foldl (fun a b => Max.max a |b|) MINf
  frames.map (fun f =>
    { f with origin := vsmul scale (vsub f.origin center) })

/-- Model of curve.rs add_tube_segment (lines 209-229): the ring of
radial_segments + 1 vertices swept around one frame. -/
def add_tube_segment (ops : RealOps) (frame : FrenetSerretFrame)
    (tube : Curve) (index : ℕ) : List Vtx :=
  let angle_step := tube.radial_circumference / (tube.radial_segments : ℚ)
  (List.range (tube.radial_segments + 1)).map (fun (i : ℕ) =>
    let theta := angle_step * (i : ℚ) + tube.radial_offset
    let s := ops.sinF theta
    let c := -(ops.cosF theta)
    let normal := vnormalize ops
      (vadd (vsmul c frame.normal) (vsmul s frame.binormal))
    let position := vadd frame.origin (vsmul tube.radius normal)
    { pos := position, nor := normal,
      uv := ⟨(index : ℚ) / (tube.length_segments : ℚ),
             (i : ℚ) / (tube.radial_segments : ℚ)⟩ })

/-- Model of curve.rs add_ribbon_segment (lines 231-268): two front
vertices, plus two back vertices when radial_segments is 2. -/
def add_ribbon_segment (ops : RealOps) (frame : FrenetSerretFrame)
    (tube : Curve) (index : ℕ) : List Vtx :=
  let theta := tube.radial_offset + FRACPI2f
  let s := ops.sinF theta
  let c := -(ops.cosF theta)
  let base := vnormalize ops
    (vadd (vsmul c frame.normal) (vsmul s frame.binormal))
  let front_normal := vcross frame.tangent base
  [{ pos := vadd frame.origin (vsmul tube.radius base),
     nor := front_normal,
     uv := ⟨(index : ℚ) / (tube.length_segments : ℚ), 0⟩ },
   { pos := vadd frame.origin (vsmul tube.radius (vneg base)),
     nor := front_normal,
     uv := ⟨(index : ℚ) / (tube.length_segments : ℚ), 1⟩ }]
  ++ (if tube.radial_segments = 2 then
    [{ pos := vadd frame.origin (vsmul tube.radius (vneg base)),
       nor := vneg front_normal,
       uv := ⟨(index : ℚ) / (tube.length_segments : ℚ), 0⟩ },
     { pos := vadd frame.origin (vsmul tube.radius base),
       nor := vneg front_normal,
       uv := ⟨(index : ℚ) / (tube.length_segments : ℚ), 1⟩ }]
    else [])

/-- Model of curve.rs normalize_positions (lines 271-285): recenter and
rescale a point list by its bounding extent; the scale is the reciprocal
of the largest absolute extent length (the fold starts at f32::MIN). -/
def normalize_positions (positions : List V3) : List V3 :=
  let extent := positions.foldl Extent.extend_to_include Extent.new
  let center := extent.center
  let lengths := [extent.lengths.x, extent.lengths.y, extent.lengths.z]
  let scale := 1 / lengths.foldl (fun a b => Max.max a |b|) MINf
  positions.map (fun p => vsmul scale (vsub p center))

/-- Model of curve.rs index_tube (lines 287-305). -/
def index_tube (tube : Curve) : List ℕ :=
  (List.range tube.length_segments).flatMap (fun (j1 : ℕ) =>
    let j := j1 + 1
    (List.range tube.radial_segments).flatMap (fun (i1 : ℕ) =>
      let i := i1 + 1
      let a := (tube.radial_segments + 1) * (j - 1) + (i - 1)
      let b := (tube.radial_segments + 1) * j + (i - 1)
      let c := (tube.radial_segments + 1) * j + i
      let d := (tube.radial_segments + 1) * (j - 1) + i
      [a, b, d, b, c, d]))

/-- Model of curve.rs index_ribbon (lines 307-319). -/
def index_ribbon (tube : Curve) : List ℕ :=
  (List.range tube.length_segments).flatMap (fun ls =>
    (List.range tube.radial_segments).flatMap (fun rs =>
      (FlatTrapezeIndices.mk
        (2 * tube.radial_segments * ls + 2 * rs)
        (2 * tube.radial_segments * (ls + 1) + 2 * rs)
        (2 * tube.radial_segments * ls + 2 * rs + 1)
        (2 * tube.radial_segments * (ls + 1) + 2 * rs + 1)
        ).generate_triangles []))

/-- Model of curve.rs add_tube (lines 321-343): compute and normalize the
frames, sweep a ribbon or tube cross-section over each, and index. -/
def add_tube (ops : RealOps) (tube : Curve) : List Vtx × List ℕ :=
  let frames := normalize_frames
    (calculate_frames ops tube.curve (tube.length_segments + 1))
  let verts := (mapFrom (fun idx frame =>
    if tube.radial_segments < 3 then add_ribbon_segment ops frame tube idx
    else add_tube_segment ops frame tube idx) 0 frames).flatten
  let indices :=
    if tube.radial_segments < 3 then index_ribbon tube else index_tube tube
  (verts, indices)

/-- Model of curve.rs make_line (lines 345-357): sample the curve at
length_segments + 1 points, normalize, and build a line-strip mesh with
only the position attribute. -/
def make_line (tube : Curve) : BMesh :=
  let step : ℚ := 1 / (tube.length_segments : ℚ)
  let positions := (List.range (tube.length_segments + 1)).map (fun (i : ℕ) =>
    tube.curve.eval_at (step * (i : ℚ)))
  { topology := .lineStrip,
    positions := normalize_positions positions,
    normals := none, uvs := none, indices := none }

/-- Model of `From<Curve> for Mesh` (src/curve.rs lines 359-386): the
length-segment assert, the degenerate line dispatch, the remaining
parameter asserts, and the tube/ribbon build. -/
def curveMesh (ops : RealOps) (tube : Curve) : GenResult BMesh :=
  if ¬ 0 < tube.length_segments then
    .panic "Must have at least one length segment" else
  if |tube.radius| < EPSf ∨ tube.radial_segments = 0 then
    .ok (make_line tube) else
  if ¬ 0 < tube.radial_segments then
    .panic "Must have at least one radial segment" else
  if ¬ (0 ≤ tube.radial_offset ∧ tube.radial_offset ≤ TAUf) then
    .panic "Radial offset must be in [0, 2pi]" else
  if ¬ (0 < tube.radial_circumference ∧ tube.radial_circumference ≤ TAUf) then
    .panic "Radial circumference must be in (0, 2pi]" else
  let vi := add_tube ops tube
  .ok { topology := .triangleList,
        positions := vi.1.map Vtx.pos,
        normals := some (vi.1.map Vtx.nor),
        uvs := some (vi.1.map Vtx.uv),
        indices := some vi.2 }

namespace FPM

/-- An exact rational carried as an integer fraction with positive
denominator, not necessarily in lowest terms; the payload of finite f32
values in the special-value model. (A plain fraction pair is used instead
of ℚ so that every operation reduces by kernel computation; two payloads
denote the same number exactly when cross-multiplication agrees.) -/
structure Q where
  n : ℤ
  d : ℤ
deriving DecidableEq, Repr

/-- Build a fraction, moving the sign to the numerator. -/
def mkQ (n d : ℤ) : Q := if d < 0 then ⟨-n, -d⟩ else ⟨n, d⟩

/-- Exact fraction addition. -/
def Q.add (a b : Q) : Q := ⟨a.n * b.d + b.n * a.d, a.d * b.d⟩

/-- Exact fraction subtraction. -/
def Q.sub (a b : Q) : Q := ⟨a.n * b.d - b.n * a.d, a.d * b.d⟩

/-- Exact fraction multiplication. -/
def Q.mul (a b : Q) : Q := ⟨a.n * b.n, a.d * b.d⟩

/-- Exact fraction division; meaningful only for a nonzero divisor. -/
def Q.div (a b : Q) : Q := mkQ (a.n * b.d) (a.d * b.n)

/-- Value comparison of fractions with positive denominators. -/
def Q.le (a b : Q) : Prop := a.n * b.d ≤ b.n * a.d

instance : DecidableRel Q.le := fun a b => by
  unfold Q.le
  infer_instance

/-- The fraction denotes zero. -/
def Q.isZero (a : Q) : Bool := a.n = 0

/-- The fraction denotes a positive number. -/
def Q.isPos (a : Q) : Bool := 0 < a.n

/-- The fraction denotes a negative number. -/
def Q.isNeg (a : Q) : Bool := a.n < 0

/-- Absolute value of a fraction with positive denominator. -/
def Q.abs (a : Q) : Q := ⟨|a.n|, a.d⟩

/-- Value minimum of two fractions (Rust f32::min on numbers). -/
def Q.min (a b : Q) : Q := if Q.le a b then a else b

/-- Value maximum of two fractions (Rust f32::max on numbers). -/
def Q.max (a b : Q) : Q := if Q.le a b then b else a

/-- The exact integer value of f32::MAX as a fraction. -/
def QMAXf : Q := ⟨340282346638528859811704183484516925440, 1⟩

/-- The exact integer value of f32::MIN as a fraction. -/
def QMINf : Q := ⟨-340282346638528859811704183484516925440, 1⟩

/-- An f32 value with its IEEE-754 special values: NaN, the two
infinities, and finite values carried as exact fractions. Only the
operations the normalization path performs are modelled, and on the
inputs evaluated here every finite-finite operation is exact in f32, so
no rounding is modelled. -/
inductive F32 where
  | nan
  | pinf
  | ninf
  | fin (q : Q)
deriving DecidableEq, Repr

/-- True exactly on NaN. -/
def F32.isNaN : F32 → Bool
  | .nan => true
  | _ => false

/-- True exactly on finite values. -/
def F32.isFinite : F32 → Bool
  | .fin _ => true
  | _ => false

/-- IEEE subtraction with special values; exact on finite values. -/
def F32.sub : F32 → F32 → F32
  | .nan, _ => .nan
  | _, .nan => .nan
  | .pinf, .pinf => .nan
  | .ninf, .ninf => .nan
  | .pinf, _ => .pinf
  | .ninf, _ => .ninf
  | .fin _, .pinf => .ninf
  | .fin _, .ninf => .pinf
  | .fin a, .fin b => .fin (a.sub b)

/-- IEEE addition with special values; exact on finite values. -/
def F32.add : F32 → F32 → F32
  | .nan, _ => .nan
  | _, .nan => .nan
  | .pinf, .ninf => .nan
  | .ninf, .pinf => .nan
  | .pinf, _ => .pinf
  | .ninf, _ => .ninf
  | .fin _, .pinf => .pinf
  | .fin _, .ninf => .ninf
  | .fin a, .fin b => .fin (a.add b)

/-- IEEE multiplication with special values: zero times an infinity is
NaN; exact on finite values. -/
def F32.mul : F32 → F32 → F32
  | .nan, _ => .nan
  | _, .nan => .nan
  | .pinf, .pinf => .pinf
  | .pinf, .ninf => .ninf
  | .ninf, .pinf => .ninf
  | .ninf, .ninf => .pinf
  | .pinf, .fin q => if q.isPos then .pinf else if q.isNeg then .ninf else .nan
  | .ninf, .fin q => if q.isPos then .ninf else if q.isNeg then .pinf else .nan
  | .fin q, .pinf => if q.isPos then .pinf else if q.isNeg then .ninf else .nan
  | .fin q, .ninf => if q.isPos then .ninf else if q.isNeg then .pinf else .nan
  | .fin a, .fin b => .fin (a.mul b)

/-- IEEE division with special values: a nonzero finite value divided by
(positive) zero is the signed infinity, zero by zero is NaN; exact on
finite values (the model carries the unsigned zero as IEEE +0). -/
def F32.div : F32 → F32 → F32
  | .nan, _ => .nan
  | _, .nan => .nan
  | .pinf, .pinf => .nan
  | .pinf, .ninf => .nan
  | .ninf, .pinf => .nan
  | .ninf, .ninf => .nan
  | .pinf, .fin q => if q.isNeg then .ninf else .pinf
  | .ninf, .fin q => if q.isNeg then .pinf else .ninf
  | .fin _, .pinf => .fin ⟨0, 1⟩
  | .fin _, .ninf => .fin ⟨0, 1⟩
  | .fin a, .fin b =>
    if b.isZero then
      (if a.isPos then .pinf else if a.isNeg then .ninf else .nan)
    else .fin (a.div b)

/-- Rust f32::min: if one operand is NaN the other is returned. -/
def F32.fmin : F32 → F32 → F32
  | .nan, b => b
  | a, .nan => a
  | .ninf, _ => .ninf
  | _, .ninf => .ninf
  | .pinf, b => b
  | a, .pinf => a
  | .fin a, .fin b => .fin (a.min b)

/-- Rust f32::max: if one operand is NaN the other is returned. -/
def F32.fmax : F32 → F32 → F32
  | .nan, b => b
  | a, .nan => a
  | .pinf, _ => .pinf
  | _, .pinf => .pinf
  | .ninf, b => b
  | a, .ninf => a
  | .fin a, .fin b => .fin (a.max b)

/-- Rust f32::abs with special values. -/
def F32.fabs : F32 → F32
  | .nan => .nan
  | .pinf => .pinf
  | .ninf => .pinf
  | .fin a => .fin a.abs

/-- A 3D vector of f32 values with special values. -/
structure V3F where
  x : F32
  y : F32
  z : F32
deriving DecidableEq, Repr

/-- Componentwise subtraction. -/
def vsubF (a b : V3F) : V3F := ⟨a.x.sub b.x, a.y.sub b.y, a.z.sub b.z⟩

/-- Componentwise addition. -/
def vaddF (a b : V3F) : V3F := ⟨a.x.add b.x, a.y.add b.y, a.z.add b.z⟩

/-- Scalar multiplication. -/
def vsmulF (s : F32) (a : V3F) : V3F := ⟨s.mul a.x, s.mul a.y, s.mul a.z⟩

/-- Division of a vector by a scalar. -/
def vdivF (a : V3F) (s : F32) : V3F := ⟨a.x.div s, a.y.div s, a.z.div s⟩

/-- Model of util.rs Extent over f32 values with special values. -/
structure ExtentF where
  min : V3F
  max : V3F
deriving DecidableEq, Repr

/-- Model of Extent::new over special-value f32. -/
def ExtentF.new : ExtentF :=
  ⟨⟨.fin QMAXf, .fin QMAXf, .fin QMAXf⟩, ⟨.fin QMINf, .fin QMINf, .fin QMINf⟩⟩

/-- Model of Extent::extend_to_include over special-value f32. -/
def ExtentF.extend_to_include (e : ExtentF) (v : V3F) : ExtentF :=
  ⟨⟨e.min.x.fmin v.x, e.min.y.fmin v.y, e.min.z.fmin v.z⟩,
   ⟨e.max.x.fmax v.x, e.max.y.fmax v.y, e.max.z.fmax v.z⟩⟩

/-- Model of Extent::lengths over special-value f32. -/
def ExtentF.lengths (e : ExtentF) : V3F := vsubF e.max e.min

/-- Model of Extent::center over special-value f32. -/
def ExtentF.center (e : ExtentF) : V3F :=
  vaddF e.min (vdivF (vsubF e.max e.min) (.fin ⟨2, 1⟩))

/-- Model of curve.rs normalize_positions (lines 271-285) over f32 with
special values: when every point coincides the extent lengths are zero,
the fold yields zero, the scale is 1/0 = positive infinity, and the
final multiplication 0 * infinity produces NaN components. -/
def normalize_positions (positions : List V3F) : List V3F :=
  let extent := positions.foldl ExtentF.extend_to_include ExtentF.new
  let center := extent.center
  let lengths := [extent.lengths.x, extent.lengths.y, extent.lengths.z]
  let scale := F32.div (.fin ⟨1, 1⟩)
    (lengths.foldl (fun a b => a.fmax b.fabs) (.fin QMINf))
  positions.map (fun p => vsmulF scale (vsubF p center))

/-- Model of curve.rs make_line (lines 345-357) over f32 with special
values, for a caller-supplied curve function. -/
def make_line (eval_at : F32 → V3F) (length_segments : ℕ) : List V3F :=
  let step := F32.div (.fin ⟨1, 1⟩) (.fin ⟨(length_segments : ℤ), 1⟩)
  let positions := (List.range (length_segments + 1)).map (fun (i : ℕ) =>
    eval_at (step.mul (.fin ⟨(i : ℤ), 1⟩)))
  normalize_positions positions

end FPM

/-- Length of a flatMap over a range of constant-size blocks. -/
theorem length_range_flatMap {β : Type} (f : ℕ → List β) (n k : ℕ)
    (h : ∀ i, (f i).length = k) :
    ((List.range n).flatMap f).length = n * k := by
  induction n with
  | zero => simp
  | succ m ih =>
    rw [List.range_succ, List.flatMap_append, List.length_append, ih]
    simp [h m, Nat.succ_mul]

/-- Membership in a flatMap over a range. -/
theorem mem_range_flatMap {β : Type} {x : β} {f : ℕ → List β} {n : ℕ} :
    x ∈ (List.range n).flatMap f ↔ ∃ i, i < n ∧ x ∈ f i := by
  simp [List.mem_flatMap, List.mem_range]

/-- Row-major index bound for a grid of cells. -/
theorem mul_index_lt {i j n m : ℕ} (hi : i < n) (hj : j < m) :
    i * m + j < n * m := by
  calc i * m + j < i * m + m := by omega
    _ = (i + 1) * m := by ring
    _ ≤ n * m := Nat.mul_le_mul_right m hi

/-- mapFrom preserves length. -/
theorem mapFrom_length {α β : Type} (f : ℕ → α → β) (i : ℕ) (l : List α) :
    (mapFrom f i l).length = l.length := by
  induction l generalizing i with
  | nil => rfl
  | cons a as ih => simp [mapFrom, ih]

/-- Element lookup in mapFrom: position k holds f applied at index i + k. -/
theorem mapFrom_getElem? {α β : Type} (f : ℕ → α → β) (i k : ℕ)
    (l : List α) : (mapFrom f i l)[k]? = (l[k]?).map (f (i + k)) := by
  induction l generalizing i k with
  | nil => simp [mapFrom]
  | cons a as ih =>
    cases k with
    | zero => simp [mapFrom]
    | succ k0 =>
      have e : i + 1 + k0 = i + (k0 + 1) := by omega
      simp only [mapFrom, List.getElem?_cons_succ]
      rw [ih (i + 1) k0, e]

/-- Length of the flattened mapFrom when every block has size k. -/
theorem length_flatten_mapFrom {α β : Type} (f : ℕ → α → List β) (k : ℕ)
    (h : ∀ i a, (f i a).length = k) (i : ℕ) (l : List α) :
    ((mapFrom f i l).flatten).length = l.length * k := by
  induction l generalizing i with
  | nil => simp [mapFrom]
  | cons a as ih =>
    simp [mapFrom, List.flatten_cons, h i a, ih (i + 1), Nat.succ_mul]
    omega

/-- propagate_frames produces exactly cnt frames. -/
theorem propagate_frames_length (ops : RealOps) (curve : CurveFn) (step : ℚ)
    (prev : FrenetSerretFrame) (i cnt : ℕ) :
    (propagate_frames ops curve step prev i cnt).length = cnt := by
  induction cnt generalizing prev i with
  | zero => rfl
  | succ m ih => simp [propagate_frames, ih]

/-- closure_correction preserves the number of frames. -/
theorem closure_correction_length (ops : RealOps) (dtheta : ℚ)
    (l : List FrenetSerretFrame) :
    (closure_correction ops dtheta l).length = l.length := by
  cases l with
  | nil => rfl
  | cons f0 rest => simp [closure_correction, mapFrom_length]

/-- calculate_frames produces exactly num_frames frames when at least one
frame is requested. -/
theorem calculate_frames_length (ops : RealOps) (curve : CurveFn)
    (num_frames : ℕ) (h : 1 ≤ num_frames) :
    (calculate_frames ops curve num_frames).length = num_frames := by
  rw [calculate_frames]
  simp only []
  split
  · rw [closure_correction_length]
    simp [propagate_frames_length]
    omega
  · simp [propagate_frames_length]
    omega

/-- normalize_frames preserves the number of frames. -/
theorem normalize_frames_length (frames : List FrenetSerretFrame) :
    (normalize_frames frames).length = frames.length := by
  simp [normalize_frames]

/-- normalize_positions preserves the number of points. -/
theorem normalize_positions_length (positions : List V3) :
    (normalize_positions positions).length = positions.length := by
  simp [normalize_positions]

/-- A concrete `RealOps` record with constant cosine 1, constant sine 0
and identity square root; it agrees with the f32 routines at angle 0 and
is used to instantiate theorems and counterexamples on closed inputs. -/
def opsId : RealOps :=
  { cosF := fun _ => 1, sinF := fun _ => 0, sqrtF := fun q => q,
    acosF := fun _ => 0, asinF := fun _ => 0, atan2F := fun _ _ => 0 }

/-- A Curve input taking the degenerate line path: zero radius over the
default straight-line curve with one length segment. -/
def lineCurveC2 : Curve :=
  { radius := 0, curve := DefaultCurve, length_segments := 1,
    radial_segments := 8, radial_circumference := TAUf, radial_offset := 0 }

/-- C8: for every four corner indices and every index buffer,
generate_triangles appends exactly six indices, forming the triangles
(upper_left, upper_right, lower_left) and
(upper_right, lower_right, lower_left), in that order. -/
theorem generate_triangles_two_triangles (f : FlatTrapezeIndices)
    (indices : List ℕ) :
    f.generate_triangles indices
      = indices ++ [f.upper_left, f.upper_right, f.lower_left,
                    f.upper_right, f.lower_right, f.lower_left]
    ∧ (f.generate_triangles indices).length = indices.length + 6 :=
  ⟨rfl, by simp [FlatTrapezeIndices.generate_triangles]⟩

/-- C9: generating a mesh from the default Grid parameters (1 by 1, one
segment each way) yields exactly 4 vertices, 6 indices forming 2
triangles, and every vertex normal equal to (0, 1, 0). -/
theorem grid_default_mesh :
    ∃ m, gridMesh Grid.default = .ok m
      ∧ m.positions.length = 4
      ∧ m.indices = some [2, 3, 0, 3, 1, 0]
      ∧ m.normals = some [⟨0, 1, 0⟩, ⟨0, 1, 0⟩, ⟨0, 1, 0⟩, ⟨0, 1, 0⟩] :=
  ⟨_, rfl, by decide, by decide, by decide⟩

/-- C3: the cylinder validation accepts a zero top or bottom cap radius
(the source asserts `radius >= 0.0` although its message asks for a
positive radius), so generation succeeds where the claim requires an
invalid-parameter failure. -/
theorem cylinder_zero_radius_accepted (ops : RealOps) :
    (cylinderMesh ops ⟨1, 1 / 2, 0, 3⟩).isOk = true
    ∧ (cylinderMesh ops ⟨1, 0, 1 / 2, 3⟩).isOk = true := by
  constructor <;> (rw [cylinderMesh]; norm_num [GenResult.isOk])

/-- C6: the torus validation never checks tube_offset (the source's last
assert block tests tube_radius instead), so a torus whose
tube_circumference is below a full turn and whose tube_offset is 7,
outside [0, 2pi], is accepted where the claim requires an
invalid-parameter failure. -/
theorem torus_tube_offset_unvalidated (ops : RealOps) :
    (torusMesh ops ⟨1, 1 / 5, 3, 3, TAUf, 3, 0, 7⟩).isOk = true := by
  rw [torusMesh]
  norm_num [TAUf, GenResult.isOk]

/-- The C10 constant curve function in the special-value f32 model:
every sample is the point (1, 2, 3). -/
def constCurveF : FPM.F32 → FPM.V3F :=
  fun _ => ⟨.fin ⟨1, 1⟩, .fin ⟨2, 1⟩, .fin ⟨3, 1⟩⟩

/-- The C10 Curve input in the rational model: zero radius over a
constant curve function. -/
def constCurveC10 : Curve :=
  { radius := 0,
    curve := { eval_at := fun _ => ⟨1, 2, 3⟩,
               tangent_at := fun _ => ⟨0, 1, 0⟩ },
    length_segments := 1, radial_segments := 8,
    radial_circumference := TAUf, radial_offset := 0 }

/-- A curve function in the special-value f32 model whose samples differ
along the x axis. -/
def diagCurveF : FPM.F32 → FPM.V3F := fun t => ⟨t, .fin ⟨0, 1⟩, .fin ⟨0, 1⟩⟩

/-- C10: a valid Curve input with zero radius and a constant curve
function reaches the line path with no error reported, the extent of the
coinciding samples is zero in every axis, the scale becomes the
reciprocal of zero, and in the IEEE model every returned coordinate is
NaN; a sample pair differing along an axis yields finite output. -/
theorem normalize_positions_nan_on_coincident :
    (FPM.make_line constCurveF 1).all
        (fun v => v.x.isNaN && v.y.isNaN && v.z.isNaN) = true
    ∧ (FPM.make_line constCurveF 1).length = 2
    ∧ (curveMesh opsZero constCurveC10).isOk = true
    ∧ (FPM.make_line diagCurveF 1).all
        (fun v => v.x.isFinite && v.y.isFinite && v.z.isFinite) = true := by
  refine ⟨by decide, by decide, ?_, by decide⟩
  rw [curveMesh]
  norm_num [EPSf, constCurveC10, GenResult.isOk]

/-- C2 counterexample: the Curve generator's degenerate line case returns
a mesh with two positions but no normals and no uvs attribute at all, so
the claimed length equalities fail there. -/
theorem curve_line_mesh_lacks_normals :
    ∃ m, curveMesh opsZero lineCurveC2 = .ok m
      ∧ m.positions.length = 2 ∧ m.normals = none ∧ m.uvs = none := by
  refine ⟨make_line lineCurveC2, ?_, ?_, rfl, rfl⟩
  · rw [curveMesh]
    norm_num [EPSf, lineCurveC2]
  · simp [make_line, normalize_positions_length, lineCurveC2]

/-- C4 (amended): polygon generation with fewer than 3 points fails by
panicking on the validation assert — it does not return a typed error. -/
theorem polygon_too_few_points_panics (tri : List V2 → Option (List ℕ))
    (p : Polygon) (h : p.points.length < 3) :
    polygonMesh tri p
      = .panic "At least 3 points are needed to produce a closed shape." := by
  rw [polygonMesh, if_pos]
  omega

/-- Witness for the C4 theorem at a concrete two-point polygon. -/
theorem polygon_too_few_points_panics_witness :
    polygonMesh (fun _ => none) ⟨[⟨0, 0⟩, ⟨1, 0⟩]⟩
      = .panic "At least 3 points are needed to produce a closed shape." :=
  polygon_too_few_points_panics _ _ (by decide)

/-- C4 counterexample: at a concrete malformed two-point polygon the
result is a panic (abort), not the typed invalid-input failure the claim
requires. -/
theorem polygon_two_points_not_typed_error :
    (polygonMesh (fun _ => some [0, 1, 2]) ⟨[⟨0, 0⟩, ⟨2, 0⟩]⟩).isError = false
    ∧ polygonMesh (fun _ => some [0, 1, 2]) ⟨[⟨0, 0⟩, ⟨2, 0⟩]⟩
      = .panic "At least 3 points are needed to produce a closed shape." := by
  constructor <;> decide

/-- C5 (amended): every cylinder lateral ring vertex is assigned the
normalized horizontal vector (pos.x, 0, pos.z) as its normal, whose y
component is zero — also for a frustum with distinct radii. -/
theorem cylinder_ring_normal_horizontal (ops : RealOps) (c : Cylinder)
    (i : ℕ) :
    ((cylinderVertex ops c .TopRing i).nor
        = vnormalize ops ⟨(cylinderVertex ops c .TopRing i).pos.x, 0,
                          (cylinderVertex ops c .TopRing i).pos.z⟩
      ∧ (cylinderVertex ops c .TopRing i).nor.y = 0)
    ∧ ((cylinderVertex ops c .BottomRing i).nor
        = vnormalize ops ⟨(cylinderVertex ops c .BottomRing i).pos.x, 0,
                          (cylinderVertex ops c .BottomRing i).pos.z⟩
      ∧ (cylinderVertex ops c .BottomRing i).nor.y = 0) := by
  constructor <;>
    exact ⟨rfl, by simp [cylinderVertex, vnormalize, vsmul, vlength, vdot]⟩

/-- C5 counterexample: for the frustum with bottom radius 1, top radius
one half and height 1 at angle 0, the generated ring normal has zero y
component, while the claimed analytic slope normal formula has y
component two fifths. -/
theorem cylinder_frustum_normal_counterexample :
    (cylinderVertex opsId ⟨1, 1, 1 / 2, 3⟩ .TopRing 0).nor = ⟨2, 0, 0⟩
    ∧ (vnormalize opsId
        ⟨opsId.cosF 0, ((1 : ℚ) - 1 / 2) / 1, opsId.sinF 0⟩).y = 2 / 5
    ∧ (cylinderVertex opsId ⟨1, 1, 1 / 2, 3⟩ .TopRing 0).nor
      ≠ vnormalize opsId ⟨opsId.cosF 0, ((1 : ℚ) - 1 / 2) / 1, opsId.sinF 0⟩ := by
  have h0 : (cylinderVertex opsId ⟨1, 1, 1 / 2, 3⟩ .TopRing 0).nor
      = ⟨2, 0, 0⟩ := by
    simp [cylinderVertex, vnormalize, vlength, vdot, vsmul, vneg,
      sphere_coordinates, opsId]
  have h1 : (vnormalize opsId
      ⟨opsId.cosF 0, ((1 : ℚ) - 1 / 2) / 1, opsId.sinF 0⟩).y = 2 / 5 := by
    simp [vnormalize, vlength, vdot, vsmul, opsId]
    norm_num
  refine ⟨h0, h1, fun h => ?_⟩
  rw [h0] at h
  have h2 : (vnormalize opsId
      ⟨opsId.cosF 0, ((1 : ℚ) - 1 / 2) / 1, opsId.sinF 0⟩).y = 0 := by
    rw [← h]
  rw [h1] at h2
  norm_num at h2

/-- A Curve input for the degenerate line path with two length
segments. -/
def lineTubeW : Curve :=
  { radius := 0, curve := DefaultCurve, length_segments := 2,
    radial_segments := 64, radial_circumference := TAUf, radial_offset := 0 }

/-- C7: when the radius is within f32::EPSILON of zero or
radial_segments is zero (and at least one length segment is given), the
Curve conversion dispatches to make_line before any frame computation
and returns a line-strip mesh with exactly length_segments + 1
positions, no normal, uv or index attributes, and positions equal to the
normalized samples of the curve. -/
theorem curve_line_case (ops : RealOps) (tube : Curve)
    (h1 : 0 < tube.length_segments)
    (h2 : |tube.radius| < EPSf ∨ tube.radial_segments = 0) :
    curveMesh ops tube = .ok (make_line tube)
    ∧ (make_line tube).topology = .lineStrip
    ∧ (make_line tube).positions.length = tube.length_segments + 1
    ∧ (make_line tube).normals = none
    ∧ (make_line tube).uvs = none
    ∧ (make_line tube).indices = none
    ∧ (make_line tube).positions = normalize_positions
        ((List.range (tube.length_segments + 1)).map (fun (i : ℕ) =>
          tube.curve.eval_at ((1 / (tube.length_segments : ℚ)) * (i : ℚ)))) := by
  have hp : (make_line tube).positions = normalize_positions
      ((List.range (tube.length_segments + 1)).map (fun (i : ℕ) =>
        tube.curve.eval_at ((1 / (tube.length_segments : ℚ)) * (i : ℚ)))) := rfl
  refine ⟨?_, rfl, ?_, rfl, rfl, rfl, hp⟩
  · rw [curveMesh, if_neg (not_not_intro h1), if_pos h2]
  · rw [hp, normalize_positions_length, List.length_map, List.length_range]

/-- Witness for the C7 theorem at a concrete zero-radius curve with two
length segments. -/
theorem curve_line_case_witness :
    curveMesh opsZero lineTubeW = .ok (make_line lineTubeW)
    ∧ (make_line lineTubeW).positions.length = 3
    ∧ (make_line lineTubeW).normals = none := by
  have h := curve_line_case opsZero lineTubeW (by decide)
    (Or.inl (by norm_num [lineTubeW, EPSf]))
  exact ⟨h.1, h.2.2.1, h.2.2.2.1⟩

/-- Rotation by an angle of zero is the identity, for any model whose
cosine is 1 and sine is 0 at angle zero. -/
theorem rotate_axis_angle_zero (ops : RealOps) (h1 : ops.cosF 0 = 1)
    (h2 : ops.sinF 0 = 0) (axis v : V3) :
    rotate_axis_angle ops axis 0 v = v := by
  cases v
  simp [rotate_axis_angle, vsmul, vadd, vdot, vcross, h1, h2]

/-- C1 (code_bug evaluation): in the closure-correction loop the
enumerate index restarts at zero after skip(1), so the frame at list
position k + 1 is rotated by discrepancy_theta * k about its own
tangent; in particular the frame at position 1 keeps its normal
unchanged even when the discrepancy is nonzero, while the claim requires
every frame i to be rotated by i/(N-1) of the total discrepancy
(calculate_frames applies this pass to the propagated frames whenever
the curve is closed). -/
theorem closure_correction_off_by_one (ops : RealOps) (dtheta : ℚ)
    (f0 : FrenetSerretFrame) (rest : List FrenetSerretFrame)
    (h1 : ops.cosF 0 = 1) (h2 : ops.sinF 0 = 0) :
    (∀ k : ℕ, (closure_correction ops dtheta (f0 :: rest))[k + 1]?
        = (rest[k]?).map (rotate_frame ops (dtheta * (k : ℚ)))) ∧
    (∀ f, rest[0]? = some f →
      ((closure_correction ops dtheta (f0 :: rest))[1]?).map
          FrenetSerretFrame.normal = some f.normal) := by
  have hs : ∀ k : ℕ, (closure_correction ops dtheta (f0 :: rest))[k + 1]?
      = (rest[k]?).map (rotate_frame ops (dtheta * (k : ℚ))) := by
    intro k
    show (f0 :: mapFrom _ 0 rest)[k + 1]? = _
    rw [List.getElem?_cons_succ, mapFrom_getElem?]
    simp
  refine ⟨hs, fun f hf => ?_⟩
  rw [hs 0, hf]
  simp [rotate_frame, rotate_axis_angle_zero ops h1 h2]

/-- The C2 buffer invariant on a triangle mesh, as a decidable check:
the normal, uv and index attributes are present, normals and uvs have as
many entries as positions, every index is below the position count, and
the index count is a multiple of three. -/
def meshOk (m : BMesh) : Bool :=
  match m.normals, m.uvs, m.indices with
  | some ns, some uvl, some il =>
    (ns.length == m.positions.length) && (uvl.length == m.positions.length)
      && il.all (fun i => decide (i < m.positions.length))
      && (il.length % 3 == 0)
  | _, _, _ => false

/-- The shape of the Curve generator's degenerate line mesh: exactly
length_segments + 1 positions and no normal, uv or index attribute. -/
def lineOk (tube : Curve) (m : BMesh) : Bool :=
  (m.positions.length == tube.length_segments + 1)
    && m.normals.isNone && m.uvs.isNone && m.indices.isNone

/-- meshOk holds of any mesh assembled from a vertex list and an index
list whose entries are below the vertex count and whose length is a
multiple of three. -/
theorem meshOk_intro (t : Topology) (verts : List Vtx) (il : List ℕ)
    (hbound : ∀ i ∈ il, i < verts.length)
    (hmod : il.length % 3 = 0) :
    meshOk { topology := t,
             positions := verts.map Vtx.pos,
             normals := some (verts.map Vtx.nor),
             uvs := some (verts.map Vtx.uv),
             indices := some il } = true := by
  simp [meshOk, List.all_eq_true, hmod]
  exact hbound

/-- The grid has (height_segments + 1) * (width_segments + 1)
vertices. -/
theorem gridVertices_length (g : Grid) :
    (gridVertices g).length
      = (g.height_segments + 1) * (g.width_segments + 1) := by
  rw [gridVertices, length_range_flatMap _ _ (g.width_segments + 1)]
  intro i
  simp

/-- Every grid index addresses a vertex of the grid. -/
theorem gridIndices_bound (g : Grid) :
    ∀ x ∈ gridIndices g, x < (gridVertices g).length := by
  intro x hx
  rw [gridVertices_length]
  rw [gridIndices] at hx
  rw [mem_range_flatMap] at hx
  obtain ⟨fz, hz, hx⟩ := hx
  rw [mem_range_flatMap] at hx
  obtain ⟨fx, hxx, hx⟩ := hx
  simp only [FlatTrapezeIndices.generate_triangles, List.nil_append,
    List.mem_cons, List.not_mem_nil, or_false] at hx
  set W := g.width_segments + 1 with hW
  have hul : fz * W + fx + W < (g.height_segments + 1) * W := by
    calc fz * W + fx + W = (fz + 1) * W + fx := by ring
      _ < (g.height_segments + 1) * W := mul_index_lt (by omega) (by omega)
  have hur : fz * W + fx + 1 + W < (g.height_segments + 1) * W := by
    calc fz * W + fx + 1 + W = (fz + 1) * W + (fx + 1) := by ring
      _ < (g.height_segments + 1) * W := mul_index_lt (by omega) (by omega)
  have hll : fz * W + fx < (g.height_segments + 1) * W :=
    mul_index_lt (by omega) (by omega)
  have hlr : fz * W + fx + 1 < (g.height_segments + 1) * W := by
    calc fz * W + fx + 1 = fz * W + (fx + 1) := by ring
      _ < (g.height_segments + 1) * W := mul_index_lt (by omega) (by omega)
  rcases hx with h | h | h | h | h | h <;> subst h <;>
    first
    | exact hul
    | exact hur
    | exact hll
    | exact hlr

/-- The grid index buffer holds six indices per face. -/
theorem gridIndices_length (g : Grid) :
    (gridIndices g).length = g.height_segments * (g.width_segments * 6) := by
  rw [gridIndices, length_range_flatMap _ _ (g.width_segments * 6)]
  intro i
  rw [length_range_flatMap _ _ 6]
  intro j
  simp [FlatTrapezeIndices.generate_triangles]

/-- The grid generator preserves the C2 buffer invariant. -/
theorem grid_meshOk (g : Grid) (m : BMesh) (h : gridMesh g = .ok m) :
    meshOk m = true := by
  rw [gridMesh] at h
  split_ifs at h
  injection h with h
  subst h
  apply meshOk_intro
  · exact gridIndices_bound g
  · rw [gridIndices_length]
    rw [show g.height_segments * (g.width_segments * 6)
        = 3 * (2 * (g.height_segments * g.width_segments)) from by ring]
    exact Nat.mul_mod_right 3 _

/-- The cone base-disk pass pushes segments + 2 vertices. -/
theorem cone_bottom_verts_length (ops : RealOps) (cone : Cone) :
    (cone_bottom_verts ops cone).length = cone.segments + 2 := by
  simp [cone_bottom_verts]

/-- The cone body pass pushes 2 * segments + 1 vertices. -/
theorem cone_body_verts_length (ops : RealOps) (cone : Cone) :
    (cone_body_verts ops cone).length = 2 * cone.segments + 1 := by
  simp [cone_body_verts]
  omega

/-- The cone generator preserves the C2 buffer invariant. -/
theorem cone_meshOk (ops : RealOps) (cone : Cone) (m : BMesh)
    (h : coneMesh ops cone = .ok m) : meshOk m = true := by
  rw [coneMesh] at h
  split_ifs at h
  injection h with h
  subst h
  apply meshOk_intro
  · intro x hx
    rw [List.length_append, cone_bottom_verts_length, cone_body_verts_length]
    rw [List.mem_append] at hx
    rcases hx with hx | hx
    · rw [cone_bottom_indices, mem_range_flatMap] at hx
      obtain ⟨i, hi, hx⟩ := hx
      simp at hx
      omega
    · rw [cone_body_indices, cone_bottom_verts_length,
        mem_range_flatMap] at hx
      obtain ⟨i, hi, hx⟩ := hx
      simp at hx
      omega
  · have h1 : (cone_bottom_indices cone 0).length = cone.segments * 3 := by
      rw [cone_bottom_indices, length_range_flatMap _ _ 3]
      intro i
      simp
    have h2 : ∀ b, (cone_body_indices cone b).length = cone.segments * 3 := by
      intro b
      rw [cone_body_indices, length_range_flatMap _ _ 3]
      intro i
      simp
    rw [List.length_append, h1, h2]
    omega

/-- The cylinder pushes 4 * subdivisions ring vertices plus the two cap
centers. -/
theorem cylinderVertices_length (ops : RealOps) (c : Cylinder) :
    (cylinderVertices ops c).length = 4 * c.subdivisions + 2 := by
  simp [cylinderVertices, VertexPass.all]
  omega

/-- The cylinder generator preserves the C2 buffer invariant. -/
theorem cylinder_meshOk (ops : RealOps) (c : Cylinder) (m : BMesh)
    (h : cylinderMesh ops c = .ok m) : meshOk m = true := by
  rw [cylinderMesh] at h
  split_ifs at h
  injection h with h
  subst h
  apply meshOk_intro
  · intro x hx
    rw [cylinderVertices_length] at hx
    rw [cylinderVertices_length]
    rw [List.mem_append, List.mem_append] at hx
    rcases hx with (hx | hx) | hx
    · rw [add_indices_top, List.mem_append, mem_range_flatMap] at hx
      rcases hx with ⟨i, hi, hx⟩ | hx
      · simp at hx
        omega
      · simp at hx
        omega
    · rw [add_indices_bottom, List.mem_append, mem_range_flatMap] at hx
      rcases hx with ⟨i, hi, hx⟩ | hx
      · simp at hx
        omega
      · simp at hx
        omega
    · rw [add_indices_body, List.mem_append, mem_range_flatMap] at hx
      rcases hx with ⟨i, hi, hx⟩ | hx
      · simp [FlatTrapezeIndices.generate_triangles] at hx
        omega
      · simp [FlatTrapezeIndices.generate_triangles] at hx
        omega
  · have h1 : ∀ k, (add_indices_top k c).length
        = (c.subdivisions - 1) * 3 + 3 := by
      intro k
      rw [add_indices_top, List.length_append, length_range_flatMap _ _ 3]
      · rfl
      · intro i
        rfl
    have h2 : ∀ k, (add_indices_bottom k c).length
        = (c.subdivisions - 1) * 3 + 3 := by
      intro k
      rw [add_indices_bottom, List.length_append, length_range_flatMap _ _ 3]
      · rfl
      · intro i
        rfl
    have h3 : (add_indices_body c).length = (c.subdivisions - 1) * 6 + 6 := by
      rw [add_indices_body, List.length_append, length_range_flatMap _ _ 6]
      · rfl
      · intro i
        rfl
    rw [List.length_append, List.length_append, h1, h2, h3]
    omega

/-- The torus has (radial_segments + 1) * (tube_segments + 1)
vertices. -/
theorem torusVertices_length (ops : RealOps) (t : Torus) :
    (torusVertices ops t).length
      = (t.radial_segments + 1) * (t.tube_segments + 1) := by
  rw [torusVertices, length_range_flatMap _ _ (t.tube_segments + 1)]
  intro i
  simp

/-- Every torus index addresses a torus vertex. -/
theorem torusIndices_bound (ops : RealOps) (t : Torus) :
    ∀ x ∈ torusIndices t, x < (torusVertices ops t).length := by
  intro x hx
  rw [torusVertices_length]
  rw [torusIndices, mem_range_flatMap] at hx
  obtain ⟨hi, hhi, hx⟩ := hx
  rw [mem_range_flatMap] at hx
  obtain ⟨vi, hvi, hx⟩ := hx
  simp only [FlatTrapezeIndices.generate_triangles, List.nil_append,
    List.mem_cons, List.not_mem_nil, or_false] at hx
  set T := t.tube_segments + 1 with hT
  have c00 : hi * T + vi < (t.radial_segments + 1) * T :=
    mul_index_lt (by omega) (by omega)
  have c01 : hi * T + vi + 1 < (t.radial_segments + 1) * T := by
    calc hi * T + vi + 1 = hi * T + (vi + 1) := by ring
      _ < (t.radial_segments + 1) * T := mul_index_lt (by omega) (by omega)
  have c10 : (hi + 1) * T + vi < (t.radial_segments + 1) * T :=
    mul_index_lt (by omega) (by omega)
  have c11 : (hi + 1) * T + vi + 1 < (t.radial_segments + 1) * T := by
    calc (hi + 1) * T + vi + 1 = (hi + 1) * T + (vi + 1) := by ring
      _ < (t.radial_segments + 1) * T := mul_index_lt (by omega) (by omega)
  rcases hx with h | h | h | h | h | h <;> subst h <;>
    first
    | exact c00
    | exact c01
    | exact c10
    | exact c11

/-- The torus index buffer holds six indices per face. -/
theorem torusIndices_length (t : Torus) :
    (torusIndices t).length
      = t.radial_segments * (t.tube_segments * 6) := by
  rw [torusIndices, length_range_flatMap _ _ (t.tube_segments * 6)]
  intro i
  rw [length_range_flatMap _ _ 6]
  intro j
  simp [FlatTrapezeIndices.generate_triangles]

/-- Inverting one panic guard of a validation chain: if the guarded
expression produced a mesh, the guard was not taken. -/
theorem ok_of_ite {α : Type} {c : Prop} [Decidable c] {s : String}
    {r : GenResult α} {m : α}
    (h : (if c then GenResult.panic s else r) = .ok m) : r = .ok m := by
  by_cases hc : c
  · rw [if_pos hc] at h
    exact absurd h (by simp)
  · rwa [if_neg hc] at h

/-- The torus generator preserves the C2 buffer invariant. -/
theorem torus_meshOk (ops : RealOps) (t : Torus) (m : BMesh)
    (h : torusMesh ops t = .ok m) : meshOk m = true := by
  rw [torusMesh] at h
  replace h := ok_of_ite (ok_of_ite (ok_of_ite (ok_of_ite (ok_of_ite
    (ok_of_ite (ok_of_ite (ok_of_ite (ok_of_ite (ok_of_ite (ok_of_ite
    (ok_of_ite h)))))))))))
  injection h with h
  subst h
  apply meshOk_intro
  · exact torusIndices_bound ops t
  · rw [torusIndices_length]
    rw [show t.radial_segments * (t.tube_segments * 6)
        = 3 * (2 * (t.radial_segments * t.tube_segments)) from by ring]
    exact Nat.mul_mod_right 3 _

/-- The polygon generator preserves the C2 buffer invariant, given that
the external triangulation library returns in-range indices in triples
(its documented contract; the library is not part of this repository). -/
theorem polygon_meshOk (tri : List V2 → Option (List ℕ)) (p : Polygon)
    (m : BMesh)
    (hc : ∀ idxs, tri p.points = some idxs →
      (∀ i ∈ idxs, i < p.points.length) ∧ idxs.length % 3 = 0)
    (h : polygonMesh tri p = .ok m) : meshOk m = true := by
  rw [polygonMesh] at h
  split_ifs at h
  cases htri : tri p.points with
  | none =>
    rw [htri] at h
    exact absurd h (by simp)
  | some idxs =>
    rw [htri] at h
    injection h with h
    subst h
    apply meshOk_intro
    · intro x hx
      rw [List.length_map]
      exact (hc idxs htri).1 x hx
    · exact (hc idxs htri).2

/-- A tube cross-section ring has radial_segments + 1 vertices. -/
theorem add_tube_segment_length (ops : RealOps) (frame : FrenetSerretFrame)
    (tube : Curve) (index : ℕ) :
    (add_tube_segment ops frame tube index).length
      = tube.radial_segments + 1 := by
  simp [add_tube_segment]

/-- A ribbon cross-section has two vertices, or four when
radial_segments is 2. -/
theorem add_ribbon_segment_length (ops : RealOps)
    (frame : FrenetSerretFrame) (tube : Curve) (index : ℕ) :
    (add_ribbon_segment ops frame tube index).length
      = 2 + (if tube.radial_segments = 2 then 2 else 0) := by
  rw [add_ribbon_segment]
  split_ifs <;> simp

/-- The second component of add_tube is the ribbon or tube index
buffer. -/
theorem add_tube_snd (ops : RealOps) (tube : Curve) :
    (add_tube ops tube).2
      = if tube.radial_segments < 3 then index_ribbon tube
        else index_tube tube := rfl

/-- The swept vertex list has one cross-section block per frame: 2 *
radial_segments vertices in ribbon mode, radial_segments + 1 in tube
mode. -/
theorem add_tube_verts_length (ops : RealOps) (tube : Curve)
    (hrs : tube.radial_segments ≠ 0) :
    (add_tube ops tube).1.length
      = (tube.length_segments + 1) *
        (if tube.radial_segments < 3 then 2 * tube.radial_segments
         else tube.radial_segments + 1) := by
  show ((mapFrom _ 0 (normalize_frames
    (calculate_frames ops tube.curve (tube.length_segments + 1)))).flatten).length = _
  rw [length_flatten_mapFrom _
    (if tube.radial_segments < 3 then 2 * tube.radial_segments
     else tube.radial_segments + 1)]
  · rw [normalize_frames_length, calculate_frames_length _ _ _ (by omega)]
  · intro i a
    by_cases h3 : tube.radial_segments < 3
    · rw [if_pos h3, if_pos h3, add_ribbon_segment_length]
      have : tube.radial_segments = 1 ∨ tube.radial_segments = 2 := by omega
      rcases this with h | h <;> rw [h] <;> rfl
    · rw [if_neg h3, if_neg h3, add_tube_segment_length]

/-- Every tube index addresses a swept vertex. -/
theorem index_tube_bound (tube : Curve) :
    ∀ x ∈ index_tube tube,
      x < (tube.length_segments + 1) * (tube.radial_segments + 1) := by
  intro x hx
  rw [index_tube, mem_range_flatMap] at hx
  obtain ⟨j1, hj, hx⟩ := hx
  rw [mem_range_flatMap] at hx
  obtain ⟨i1, hi, hx⟩ := hx
  simp only [Nat.add_sub_cancel, List.mem_cons, List.not_mem_nil,
    or_false] at hx
  set M := tube.radial_segments + 1 with hM
  have ca : M * j1 + i1 < (tube.length_segments + 1) * M := by
    calc M * j1 + i1 = j1 * M + i1 := by ring
      _ < (tube.length_segments + 1) * M := mul_index_lt (by omega) (by omega)
  have cb : M * (j1 + 1) + i1 < (tube.length_segments + 1) * M := by
    calc M * (j1 + 1) + i1 = (j1 + 1) * M + i1 := by ring
      _ < (tube.length_segments + 1) * M := mul_index_lt (by omega) (by omega)
  have cc : M * (j1 + 1) + (i1 + 1) < (tube.length_segments + 1) * M := by
    calc M * (j1 + 1) + (i1 + 1) = (j1 + 1) * M + (i1 + 1) := by ring
      _ < (tube.length_segments + 1) * M := mul_index_lt (by omega) (by omega)
  have cd : M * j1 + (i1 + 1) < (tube.length_segments + 1) * M := by
    calc M * j1 + (i1 + 1) = j1 * M + (i1 + 1) := by ring
      _ < (tube.length_segments + 1) * M := mul_index_lt (by omega) (by omega)
  rcases hx with h | h | h | h | h | h <;> subst h <;>
    first
    | exact ca
    | exact cb
    | exact cc
    | exact cd

/-- The tube index buffer holds six indices per quad. -/
theorem index_tube_length (tube : Curve) :
    (index_tube tube).length
      = tube.length_segments * (tube.radial_segments * 6) := by
  rw [index_tube, length_range_flatMap _ _ (tube.radial_segments * 6)]
  intro i
  rw [length_range_flatMap _ _ 6]
  intro j
  rfl

/-- Every ribbon index addresses a swept ribbon vertex. -/
theorem index_ribbon_bound (tube : Curve)
    (h12 : tube.radial_segments = 1 ∨ tube.radial_segments = 2) :
    ∀ x ∈ index_ribbon tube,
      x < (tube.length_segments + 1) * (2 * tube.radial_segments) := by
  intro x hx
  rw [index_ribbon, mem_range_flatMap] at hx
  obtain ⟨ls1, hls, hx⟩ := hx
  rw [mem_range_flatMap] at hx
  obtain ⟨rs1, hrs, hx⟩ := hx
  simp only [FlatTrapezeIndices.generate_triangles, List.nil_append,
    List.mem_cons, List.not_mem_nil, or_false] at hx
  rcases h12 with h | h <;> rw [h] at hx hrs ⊢ <;>
    rcases hx with h' | h' | h' | h' | h' | h' <;> subst h' <;> omega

/-- The ribbon index buffer holds six indices per quad. -/
theorem index_ribbon_length (tube : Curve) :
    (index_ribbon tube).length
      = tube.length_segments * (tube.radial_segments * 6) := by
  rw [index_ribbon, length_range_flatMap _ _ (tube.radial_segments * 6)]
  intro i
  rw [length_range_flatMap _ _ 6]
  intro j
  rfl

/-- The degenerate line mesh has length_segments + 1 positions. -/
theorem make_line_positions_length (tube : Curve) :
    (make_line tube).positions.length = tube.length_segments + 1 := by
  have hp : (make_line tube).positions = normalize_positions
      ((List.range (tube.length_segments + 1)).map (fun (i : ℕ) =>
        tube.curve.eval_at ((1 / (tube.length_segments : ℚ)) * (i : ℚ)))) :=
    rfl
  rw [hp, normalize_positions_length, List.length_map, List.length_range]

/-- The Curve generator preserves the C2 buffer invariant whenever it
produces a triangle-list mesh (tube or ribbon mode). -/
theorem curve_tube_meshOk (ops : RealOps) (tube : Curve) (m : BMesh)
    (h : curveMesh ops tube = .ok m) (ht : m.topology = .triangleList) :
    meshOk m = true := by
  rw [curveMesh] at h
  replace h := ok_of_ite h
  by_cases hc : |tube.radius| < EPSf ∨ tube.radial_segments = 0
  · rw [if_pos hc] at h
    injection h with h
    subst h
    simp [make_line] at ht
  · rw [if_neg hc] at h
    replace h := ok_of_ite (ok_of_ite (ok_of_ite h))
    injection h with h
    subst h
    have hrs : tube.radial_segments ≠ 0 := fun h0 => hc (Or.inr h0)
    apply meshOk_intro
    · intro x hx
      rw [add_tube_snd] at hx
      rw [add_tube_verts_length ops tube hrs]
      by_cases h3 : tube.radial_segments < 3
      · rw [if_pos h3] at hx ⊢
        exact index_ribbon_bound tube (by omega) x hx
      · rw [if_neg h3] at hx ⊢
        exact index_tube_bound tube x hx
    · rw [add_tube_snd]
      by_cases h3 : tube.radial_segments < 3
      · rw [if_pos h3, index_ribbon_length]
        rw [show tube.length_segments * (tube.radial_segments * 6)
            = 3 * (2 * (tube.length_segments * tube.radial_segments))
          from by ring]
        exact Nat.mul_mod_right 3 _
      · rw [if_neg h3, index_tube_length]
        rw [show tube.length_segments * (tube.radial_segments * 6)
            = 3 * (2 * (tube.length_segments * tube.radial_segments))
          from by ring]
        exact Nat.mul_mod_right 3 _

/-- The Curve generator's line-strip output has the degenerate line
shape: length_segments + 1 positions, no other attributes. -/
theorem curve_line_lineOk (ops : RealOps) (tube : Curve) (m : BMesh)
    (h : curveMesh ops tube = .ok m) (ht : m.topology = .lineStrip) :
    lineOk tube m = true := by
  rw [curveMesh] at h
  replace h := ok_of_ite h
  by_cases hc : |tube.radius| < EPSf ∨ tube.radial_segments = 0
  · rw [if_pos hc] at h
    injection h with h
    subst h
    simp [lineOk, make_line_positions_length]
    exact ⟨⟨rfl, rfl⟩, rfl⟩
  · rw [if_neg hc] at h
    replace h := ok_of_ite (ok_of_ite (ok_of_ite h))
    injection h with h
    subst h
    simp at ht

/-- The buffer invariant holds of a generator outcome: it produced a
mesh and that mesh passes meshOk. -/
def meshInvariantHolds (r : GenResult BMesh) : Bool :=
  match r with
  | .ok m => meshOk m
  | _ => false

/-- The line shape holds of a generator outcome: it produced a mesh of
the degenerate line shape for the given Curve input. -/
def lineShapeHolds (tube : Curve) (r : GenResult BMesh) : Bool :=
  match r with
  | .ok m => lineOk tube m
  | _ => false

/-- C2 (amended): every generator that returns a triangle mesh satisfies
len(positions) == len(normals) == len(uvs), every index below the
position count and an index count divisible by three (Polygon under the
external triangulation library's contract); the Curve generator's
degenerate line case instead returns a line-strip mesh with
length_segments + 1 positions and no normal, uv or index attributes, so
the attribute-length equalities do not extend to it. -/
theorem mesh_buffer_invariants (ops : RealOps) :
    (∀ (cone : Cone) (m : BMesh),
      coneMesh ops cone = .ok m → meshOk m = true)
    ∧ (∀ (c : Cylinder) (m : BMesh),
      cylinderMesh ops c = .ok m → meshOk m = true)
    ∧ (∀ (g : Grid) (m : BMesh), gridMesh g = .ok m → meshOk m = true)
    ∧ (∀ (t : Torus) (m : BMesh),
      torusMesh ops t = .ok m → meshOk m = true)
    ∧ (∀ (tri : List V2 → Option (List ℕ)) (p : Polygon) (m : BMesh),
      (∀ idxs, tri p.points = some idxs →
        (∀ i ∈ idxs, i < p.points.length) ∧ idxs.length % 3 = 0) →
      polygonMesh tri p = .ok m → meshOk m = true)
    ∧ (∀ (tube : Curve) (m : BMesh), curveMesh ops tube = .ok m →
      m.topology = .triangleList → meshOk m = true)
    ∧ (∀ (tube : Curve) (m : BMesh), curveMesh ops tube = .ok m →
      m.topology = .lineStrip → lineOk tube m = true) :=
  ⟨cone_meshOk ops, cylinder_meshOk ops, grid_meshOk, torus_meshOk ops,
   polygon_meshOk, curve_tube_meshOk ops, curve_line_lineOk ops⟩

/-- Concrete cone input for the C2 witness. -/
def coneW : Cone := ⟨1 / 2, 1, 3⟩

/-- Concrete cylinder input for the C2 witness. -/
def cylinderW : Cylinder := ⟨1, 1 / 2, 1 / 2, 3⟩

/-- Concrete torus input for the C2 witness. -/
def torusW : Torus := ⟨4 / 5, 1 / 5, 3, 3, TAUf, TAUf, 0, 0⟩

/-- Concrete triangulator for the C2 witness: one triangle. -/
def triW : List V2 → Option (List ℕ) := fun _ => some [0, 1, 2]

/-- Concrete polygon input for the C2 witness. -/
def polygonW : Polygon := ⟨[⟨1, 0⟩, ⟨0, 1⟩, ⟨-1, 0⟩]⟩

/-- Concrete tube-mode Curve input for the C2 witness. -/
def tubeW : Curve :=
  { radius := 1 / 10, curve := DefaultCurve, length_segments := 1,
    radial_segments := 3, radial_circumference := TAUf, radial_offset := 0 }

/-- Witness for the C2 theorem: each generator at a concrete valid input
produces a mesh passing the invariant, and the concrete line-case input
produces the degenerate line shape. -/
theorem mesh_buffer_invariants_witness :
    meshInvariantHolds (coneMesh opsZero coneW) = true
    ∧ meshInvariantHolds (cylinderMesh opsZero cylinderW) = true
    ∧ meshInvariantHolds (gridMesh Grid.default) = true
    ∧ meshInvariantHolds (torusMesh opsZero torusW) = true
    ∧ meshInvariantHolds (polygonMesh triW polygonW) = true
    ∧ meshInvariantHolds (curveMesh opsZero tubeW) = true
    ∧ lineShapeHolds lineTubeW (curveMesh opsZero lineTubeW) = true := by
  have thm := mesh_buffer_invariants opsZero
  refine ⟨?_, ?_, ?_, ?_, ?_, ?_, ?_⟩
  · cases hm : coneMesh opsZero coneW with
    | ok m =>
      rw [meshInvariantHolds]
      exact thm.1 coneW m hm
    | error s =>
      rw [coneMesh, if_neg (by norm_num [coneW]), if_neg (by norm_num [coneW]),
        if_neg (by norm_num [coneW])] at hm
      exact absurd hm (by simp)
    | panic s =>
      rw [coneMesh, if_neg (by norm_num [coneW]), if_neg (by norm_num [coneW]),
        if_neg (by norm_num [coneW])] at hm
      exact absurd hm (by simp)
  · cases hm : cylinderMesh opsZero cylinderW with
    | ok m =>
      rw [meshInvariantHolds]
      exact thm.2.1 cylinderW m hm
    | error s =>
      rw [cylinderMesh, if_neg (by norm_num [cylinderW]),
        if_neg (by norm_num [cylinderW]), if_neg (by norm_num [cylinderW]),
        if_neg (by norm_num [cylinderW])] at hm
      exact absurd hm (by simp)
    | panic s =>
      rw [cylinderMesh, if_neg (by norm_num [cylinderW]),
        if_neg (by norm_num [cylinderW]), if_neg (by norm_num [cylinderW]),
        if_neg (by norm_num [cylinderW])] at hm
      exact absurd hm (by simp)
  · cases hm : gridMesh Grid.default with
    | ok m =>
      rw [meshInvariantHolds]
      exact thm.2.2.1 Grid.default m hm
    | error s =>
      rw [gridMesh, if_neg (by norm_num [Grid.default]),
        if_neg (by norm_num [Grid.default]),
        if_neg (by norm_num [Grid.default]),
        if_neg (by norm_num [Grid.default])] at hm
      exact absurd hm (by simp)
    | panic s =>
      rw [gridMesh, if_neg (by norm_num [Grid.default]),
        if_neg (by norm_num [Grid.default]),
        if_neg (by norm_num [Grid.default]),
        if_neg (by norm_num [Grid.default])] at hm
      exact absurd hm (by simp)
  · cases hm : torusMesh opsZero torusW with
    | ok m =>
      rw [meshInvariantHolds]
      exact thm.2.2.2.1 torusW m hm
    | error s =>
      rw [torusMesh, if_neg (by norm_num [torusW, TAUf]),
        if_neg (by norm_num [torusW, TAUf]), if_neg (by norm_num [torusW, TAUf]),
        if_neg (by norm_num [torusW, TAUf]), if_neg (by norm_num [torusW, TAUf]),
        if_neg (by norm_num [torusW, TAUf]), if_neg (by norm_num [torusW, TAUf]),
        if_neg (by norm_num [torusW, TAUf]), if_neg (by norm_num [torusW, TAUf]),
        if_neg (by norm_num [torusW, TAUf]), if_neg (by norm_num [torusW, TAUf]),
        if_neg (by norm_num [torusW, TAUf])] at hm
      exact absurd hm (by simp)
    | panic s =>
      rw [torusMesh, if_neg (by norm_num [torusW, TAUf]),
        if_neg (by norm_num [torusW, TAUf]), if_neg (by norm_num [torusW, TAUf]),
        if_neg (by norm_num [torusW, TAUf]), if_neg (by norm_num [torusW, TAUf]),
        if_neg (by norm_num [torusW, TAUf]), if_neg (by norm_num [torusW, TAUf]),
        if_neg (by norm_num [torusW, TAUf]), if_neg (by norm_num [torusW, TAUf]),
        if_neg (by norm_num [torusW, TAUf]), if_neg (by norm_num [torusW, TAUf]),
        if_neg (by norm_num [torusW, TAUf])] at hm
      exact absurd hm (by simp)
  · have hctr : ∀ idxs, triW polygonW.points = some idxs →
        (∀ i ∈ idxs, i < polygonW.points.length) ∧ idxs.length % 3 = 0 := by
      intro idxs h
      cases h
      exact ⟨by decide, by decide⟩
    cases hm : polygonMesh triW polygonW with
    | ok m =>
      rw [meshInvariantHolds]
      exact thm.2.2.2.2.1 triW polygonW m hctr hm
    | error s =>
      rw [polygonMesh, if_neg (by norm_num [polygonW])] at hm
      exact absurd hm (by simp [triW])
    | panic s =>
      rw [polygonMesh, if_neg (by norm_num [polygonW])] at hm
      exact absurd hm (by simp [triW])
  · cases hm : curveMesh opsZero tubeW with
    | ok m =>
      rw [meshInvariantHolds]
      have hm2 := hm
      rw [curveMesh, if_neg (by norm_num [tubeW]),
        if_neg (by norm_num [tubeW, EPSf, abs_of_pos]), if_neg (by norm_num [tubeW]),
        if_neg (by norm_num [tubeW, TAUf]),
        if_neg (by norm_num [tubeW, TAUf])] at hm2
      injection hm2 with h2
      have htop : m.topology = .triangleList := by rw [← h2]
      exact thm.2.2.2.2.2.1 tubeW m hm htop
    | error s =>
      rw [curveMesh, if_neg (by norm_num [tubeW]),
        if_neg (by norm_num [tubeW, EPSf, abs_of_pos]), if_neg (by norm_num [tubeW]),
        if_neg (by norm_num [tubeW, TAUf]),
        if_neg (by norm_num [tubeW, TAUf])] at hm
      exact absurd hm (by simp)
    | panic s =>
      rw [curveMesh, if_neg (by norm_num [tubeW]),
        if_neg (by norm_num [tubeW, EPSf, abs_of_pos]), if_neg (by norm_num [tubeW]),
        if_neg (by norm_num [tubeW, TAUf]),
        if_neg (by norm_num [tubeW, TAUf])] at hm
      exact absurd hm (by simp)
  · cases hm : curveMesh opsZero lineTubeW with
    | ok m =>
      rw [lineShapeHolds]
      have hm2 := hm
      rw [curveMesh, if_neg (by norm_num [lineTubeW]),
        if_pos (Or.inl (by norm_num [lineTubeW, EPSf]))] at hm2
      injection hm2 with h2
      have htop : m.topology = .lineStrip := by
        rw [← h2]
        rfl
      exact thm.2.2.2.2.2.2 lineTubeW m hm htop
    | error s =>
      rw [curveMesh, if_neg (by norm_num [lineTubeW]),
        if_pos (Or.inl (by norm_num [lineTubeW, EPSf]))] at hm
      exact absurd hm (by simp)
    | panic s =>
      rw [curveMesh, if_neg (by norm_num [lineTubeW]),
        if_pos (Or.inl (by norm_num [lineTubeW, EPSf]))] at hm
      exact absurd hm (by simp)

/-- A concrete frame for the C1 witness. -/
def frameW0 : FrenetSerretFrame :=
  ⟨⟨0, 0, 0⟩, ⟨0, 0, 1⟩, ⟨1, 0, 0⟩, ⟨0, 1, 0⟩⟩

/-- A second concrete frame for the C1 witness. -/
def frameW1 : FrenetSerretFrame :=
  ⟨⟨0, 0, 1⟩, ⟨1, 0, 0⟩, ⟨0, 1, 0⟩, ⟨0, 0, 1⟩⟩

/-- Witness for the C1 theorem: with a discrepancy step of 1, the frame
at position 1 of the corrected list still has its original normal. -/
theorem closure_correction_off_by_one_witness :
    ((closure_correction opsId 1 [frameW0, frameW1])[1]?).map
        FrenetSerretFrame.normal = some frameW1.normal :=
  (closure_correction_off_by_one opsId 1 frameW0 [frameW1] rfl rfl).2
    frameW1 rfl

end BMS
